import Mathlib

/-!
# gopher-engine: camera, viewport and screen

A shallow embedding of `scene/viewport/camera/camera.go`, `scene/viewport/viewport.go`,
`scene/screen/screen.go` and `scene/screen/shaker/shaker.go`.

Modelling conventions.

* A Go `float64` is an element of a linearly ordered field `K` and every float operation is the
  exact field operation (no rounding, no NaN, no infinities).  All definitions are computable
  and can be evaluated at `K = ℚ`; statements about rotations are specialised to `K = ℝ`.
* A Go `int` is an `Int`; arithmetic on stored integers is wrapped to 64 bits by `wrapInt`.
* `f64.Vec2` is a pair, index `0` is `.1` and index `1` is `.2`.
* A method with a pointer receiver is a function from the old receiver to the new one.
* The package `constants` is not part of the sources at hand; its three constants are the
  fields of `Constants` and every statement holds for whatever values they have.
* Writes to standard output (`fmt.Println`) and the debug text drawn on a surface are not
  modelled; a drawing call is modelled by the coordinates or the transform it draws with.
* The random source of `math/rand` is an explicit stream `Rand`, passed in and returned.
* A run-time panic (a field read through a nil pointer) is the result `none`.
-/

namespace GopherEngine

/-- The type `f64.Vec2`, an array of two floats. -/
abbrev Vec2 (K : Type) := K × K

/-- Two's complement wrap-around of a Go `int` (64 bits). -/
def wrapInt (n : Int) : Int := (n + 2 ^ 63) % 2 ^ 64 - 2 ^ 63

/-- Range of a Go `int`. -/
def IsInt64 (n : Int) : Prop := -2 ^ 63 ≤ n ∧ n < 2 ^ 63

instance (n : Int) : Decidable (IsInt64 n) := by
  unfold IsInt64; infer_instance

/-- The constants imported from package `constants`, taken as parameters. -/
structure Constants where
  MIN_VIEWPORT_ZOOM : Int
  MAX_VIEWPORT_ZOOM : Int
  AUTO_PADDING : Int

/-! ## camera.go -/

/-- The struct `FocusBoxCam`.  The field `PositionCallback` is a function that mutates state
outside the camera; it is passed to `Update` together with that outside state. -/
structure FocusBoxCam (K : Type) where
  WorldSize : Vec2 K
  FocusSize : Vec2 K
  FocusPoint : Vec2 K
  Debug : Bool
  AllowOutOfBounds : Bool

/-! ## viewport.go -/

/-- The struct `Viewport`.  `Camera` holds the `FocusBoxCam` created by `New`. -/
structure Viewport (K : Type) where
  WorldSize : Vec2 K
  ViewSize : Vec2 K
  Position : Vec2 K
  InitialPosition : Vec2 K
  WorldCenter : Vec2 K
  Margin : K
  ZoomFactor : Int
  Rotation : Int
  AllowOutOfBounds : Bool
  Camera : FocusBoxCam K

section Ordered

variable {K : Type} [LinearOrderedField K]

/-- `camera.New`; the callback argument is kept by the caller (see `FocusBoxCam`). -/
def camera.New (worldWidth worldHeight focusWidth focusHeight : Int) (focusX focusY : K) :
    FocusBoxCam K :=
  { WorldSize := ((worldWidth : K), (worldHeight : K))
    FocusSize := ((focusWidth : K), (focusHeight : K))
    FocusPoint := (focusX, focusY)
    Debug := false
    AllowOutOfBounds := false }

/-- `FocusBoxCam.GetFocus`. -/
def FocusBoxCam.GetFocus (c : FocusBoxCam K) : Vec2 K × Vec2 K :=
  (c.FocusPoint, c.FocusSize)

/-- `FocusBoxCam.OverflowAllowed`. -/
def FocusBoxCam.OverflowAllowed (c : FocusBoxCam K) (allowed : Bool) : FocusBoxCam K :=
  { c with AllowOutOfBounds := allowed }

/-- `FocusBoxCam.CheckWorldOverflow`. -/
def FocusBoxCam.CheckWorldOverflow (c : FocusBoxCam K) (x y : K) : K × K :=
  let x1 := x - c.FocusSize.1 / 2
  let y1 := y - c.FocusSize.2 / 2
  let x2 := x + c.FocusSize.1 / 2
  let y2 := y + c.FocusSize.2 / 2
  let dx : K := 0
  let dy : K := 0
  let dx := if x1 < 0 then -x1 else dx
  let dx := if x2 > c.WorldSize.1 then c.WorldSize.1 - x2 else dx
  let dy := if y1 < 0 then -y1 else dy
  let dy := if y2 > c.WorldSize.2 then c.WorldSize.2 - y2 else dy
  (dx, dy)

/-- The delta `(dx, dy)` that `FocusBoxCam.Update` computes from the focus box before the
world check (lines 67 to 86 of camera.go). -/
def FocusBoxCam.focusDelta (c : FocusBoxCam K) (x y : K) : K × K :=
  let dx : K := 0
  let dy : K := 0
  let hw := c.FocusSize.1 / 2
  let hh := c.FocusSize.2 / 2
  let lx := c.FocusPoint.1 - hw
  let rx := c.FocusPoint.1 + hw
  let ty := c.FocusPoint.2 - hh
  let by_ := c.FocusPoint.2 + hh
  let dx := if x < lx then x - lx else dx
  let dx := if x > rx then x - rx else dx
  let dy := if y < ty then y - ty else dy
  let dy := if y > by_ then y - by_ else dy
  (dx, dy)

/-- `FocusBoxCam.Update`.  `cb` is the field `PositionCallback` and `s` the state it mutates;
the result is the camera and that state after the call.  The returned error is always `nil`. -/
def FocusBoxCam.Update {σ : Type} (c : FocusBoxCam K) (cb : K → K → σ → σ) (x y : K) (s : σ) :
    FocusBoxCam K × σ :=
  let d := c.focusDelta x y
  let dx := d.1
  let dy := d.2
  if !c.AllowOutOfBounds then
    let r := c.CheckWorldOverflow (c.FocusPoint.1 + dx) (c.FocusPoint.2 + dy)
    let rdx := r.1
    let rdy := r.2
    ({ c with FocusPoint := (c.FocusPoint.1 + (dx + rdx), c.FocusPoint.2 + (dy + rdy)) },
      cb (dx + rdx) (dy + rdy) s)
  else
    ({ c with FocusPoint := (c.FocusPoint.1 + dx, c.FocusPoint.2 + dy) }, cb dx dy s)

/-- A callback that only records its arguments, one entry for each invocation. -/
def recordCall (dx dy : K) (log : List (K × K)) : List (K × K) :=
  log ++ [(dx, dy)]

/-- The closed focus box around the focus point of a camera contains the point `(x, y)`. -/
def FocusBoxCam.InFocus (c : FocusBoxCam K) (x y : K) : Prop :=
  c.FocusPoint.1 - c.FocusSize.1 / 2 ≤ x ∧ x ≤ c.FocusPoint.1 + c.FocusSize.1 / 2 ∧
  c.FocusPoint.2 - c.FocusSize.2 / 2 ≤ y ∧ y ≤ c.FocusPoint.2 + c.FocusSize.2 / 2

instance (c : FocusBoxCam K) (x y : K) : Decidable (c.InFocus x y) := by
  unfold FocusBoxCam.InFocus; infer_instance

/-- The point `(x, y)` lies strictly inside the focus box. -/
def FocusBoxCam.StrictlyInFocus (c : FocusBoxCam K) (x y : K) : Prop :=
  c.FocusPoint.1 - c.FocusSize.1 / 2 < x ∧ x < c.FocusPoint.1 + c.FocusSize.1 / 2 ∧
  c.FocusPoint.2 - c.FocusSize.2 / 2 < y ∧ y < c.FocusPoint.2 + c.FocusSize.2 / 2

instance (c : FocusBoxCam K) (x y : K) : Decidable (c.StrictlyInFocus x y) := by
  unfold FocusBoxCam.StrictlyInFocus; infer_instance

/-- The focus box of a camera lies inside the world. -/
def FocusBoxCam.BoxInWorld (c : FocusBoxCam K) : Prop :=
  0 ≤ c.FocusPoint.1 - c.FocusSize.1 / 2 ∧ c.FocusPoint.1 + c.FocusSize.1 / 2 ≤ c.WorldSize.1 ∧
  0 ≤ c.FocusPoint.2 - c.FocusSize.2 / 2 ∧ c.FocusPoint.2 + c.FocusSize.2 / 2 ≤ c.WorldSize.2

instance (c : FocusBoxCam K) : Decidable c.BoxInWorld := by
  unfold FocusBoxCam.BoxInWorld; infer_instance

/-- `viewport.New`. -/
def viewport.New (screenWidth screenHeight worldWidth worldHeight : Int) (centreX centreY : K) :
    Viewport K :=
  let posX := centreX - (screenWidth : K) / 2
  let posY := centreY - (screenHeight : K) / 2
  { ViewSize := ((screenWidth : K), (screenHeight : K))
    WorldSize := ((worldWidth : K), (worldHeight : K))
    WorldCenter := ((worldWidth : K) / 2, (worldHeight : K) / 2)
    Position := (posX, posY)
    InitialPosition := (posX, posY)
    Margin := 0
    ZoomFactor := 0
    Rotation := 0
    AllowOutOfBounds := false
    Camera := camera.New worldWidth worldHeight 60 60 160 120 }

/-- `Viewport.SetMargin`. -/
def Viewport.SetMargin (v : Viewport K) (margin : K) : Viewport K :=
  { v with Margin := margin }

/-- `Viewport.GetCenter`. -/
def Viewport.GetCenter (v : Viewport K) : K × K :=
  (v.Position.1 + v.ViewSize.1 / 2, v.Position.2 + v.ViewSize.2 / 2)

/-- `Viewport.OutOfBounds`: the correction that brings the viewport back in bounds. -/
def Viewport.OutOfBounds (v : Viewport K) : K × K :=
  let x1 := v.Position.1
  let y1 := v.Position.2
  let x2 := x1 + v.ViewSize.1
  let y2 := y1 + v.ViewSize.2
  let dx : K := 0
  let dy : K := 0
  let dx := if x1 < v.Margin then v.Margin - x1 else dx
  let dx := if x2 > v.WorldSize.1 - v.Margin then v.WorldSize.1 - v.Margin - x2 else dx
  let dy := if y1 < v.Margin then v.Margin - y1 else dy
  let dy := if y2 > v.WorldSize.2 - v.Margin then v.WorldSize.2 - v.Margin - y2 else dy
  (dx, dy)

/-- `Viewport.Reset`. -/
def Viewport.Reset (v : Viewport K) : Viewport K :=
  { v with
    Position := (v.InitialPosition.1, v.InitialPosition.2)
    Rotation := 0
    ZoomFactor := 0 }

/-- `Viewport.MoveTo`. -/
def Viewport.MoveTo (v : Viewport K) (x y : K) : Viewport K :=
  let v1 := { v with Position := (x, y) }
  if !v1.AllowOutOfBounds then
    let d := v1.OutOfBounds
    { v1 with Position := (v1.Position.1 + d.1, v1.Position.2 + d.2) }
  else v1

/-- `Viewport.MoveBy`. -/
def Viewport.MoveBy (v : Viewport K) (dx dy : K) : Viewport K :=
  let v1 := { v with Position := (v.Position.1 + dx, v.Position.2 + dy) }
  if !v1.AllowOutOfBounds then
    let od := v1.OutOfBounds
    { v1 with Position := (v1.Position.1 + od.1, v1.Position.2 + od.2) }
  else v1

/-- `Viewport.ZoomBy`. -/
def Viewport.ZoomBy (k : Constants) (v : Viewport K) (dz : Int) : Viewport K :=
  if wrapInt (v.ZoomFactor + dz) > k.MIN_VIEWPORT_ZOOM ∧
      wrapInt (v.ZoomFactor + dz) < k.MAX_VIEWPORT_ZOOM then
    { v with ZoomFactor := wrapInt (v.ZoomFactor + dz) }
  else v

/-- `Viewport.SetZoom`. -/
def Viewport.SetZoom (k : Constants) (v : Viewport K) (z : Int) : Viewport K :=
  if z > k.MIN_VIEWPORT_ZOOM ∧ z < k.MAX_VIEWPORT_ZOOM then
    { v with ZoomFactor := z }
  else v

/-- `Viewport.SetRotation`. -/
def Viewport.SetRotation (v : Viewport K) (r : Int) : Viewport K :=
  { v with Rotation := r }

/-- `Viewport.RoatateBy`. -/
def Viewport.RoatateBy (v : Viewport K) (dr : Int) : Viewport K :=
  { v with Rotation := wrapInt (v.Rotation + dr) }

/-- The call `v.Camera.Update(x, y)` on a viewport built by `viewport.New`: the camera held
in `v.Camera` is updated and its callback, which `New` sets to `v.MoveBy`, moves `v`. -/
def Viewport.CameraUpdate (v : Viewport K) (x y : K) : Viewport K :=
  let r := v.Camera.Update (fun dx dy (s : Viewport K) => s.MoveBy dx dy) x y v
  { r.2 with Camera := r.1 }

/-! ## The affine transform `ebiten.GeoM`

`GeoM` belongs to the rendering library, not to this repository.  It is the affine map
`(x, y) ↦ (a*x + b*y + tx, c*x + d*y + ty)`; the operations below are the ones the library
documents, each one composing the new map after the current one. -/

/-- The value type `ebiten.GeoM`. -/
structure GeoM (K : Type) where
  a : K
  b : K
  c : K
  d : K
  tx : K
  ty : K

/-- The zero value `ebiten.GeoM{}`, the identity map. -/
def GeoM.identity : GeoM K := ⟨1, 0, 0, 1, 0, 0⟩

/-- `GeoM.Reset`. -/
def GeoM.Reset (_g : GeoM K) : GeoM K := GeoM.identity

/-- `GeoM.Apply`. -/
def GeoM.Apply (g : GeoM K) (x y : K) : K × K :=
  (g.a * x + g.b * y + g.tx, g.c * x + g.d * y + g.ty)

/-- `GeoM.Translate`. -/
def GeoM.Translate (g : GeoM K) (tx ty : K) : GeoM K :=
  { g with tx := g.tx + tx, ty := g.ty + ty }

/-- `GeoM.Scale`. -/
def GeoM.Scale (g : GeoM K) (x y : K) : GeoM K :=
  ⟨g.a * x, g.b * x, g.c * y, g.d * y, g.tx * x, g.ty * y⟩

/-- `GeoM.Rotate`, given the pair `(sin theta, cos theta)` that `math.Sincos` returns. -/
def GeoM.Rotate (sincos : K → K × K) (g : GeoM K) (theta : K) : GeoM K :=
  if theta = 0 then g
  else
    let sin := (sincos theta).1
    let cos := (sincos theta).2
    ⟨cos * g.a - sin * g.c, cos * g.b - sin * g.d, sin * g.a + cos * g.c, sin * g.b + cos * g.d,
      cos * g.tx - sin * g.ty, sin * g.tx + cos * g.ty⟩

/-- `GeoM.Concat`: the map `other` after the map `g`. -/
def GeoM.Concat (g other : GeoM K) : GeoM K :=
  ⟨other.a * g.a + other.b * g.c, other.a * g.b + other.b * g.d,
    other.c * g.a + other.d * g.c, other.c * g.b + other.d * g.d,
    other.a * g.tx + other.b * g.ty + other.tx, other.c * g.tx + other.d * g.ty + other.ty⟩

/-- The determinant of the linear part. -/
def GeoM.det (g : GeoM K) : K := g.a * g.d - g.b * g.c

/-- `GeoM.IsInvertible`. -/
def GeoM.IsInvertible (g : GeoM K) : Bool := decide (g.det ≠ 0)

/-- `GeoM.Invert`, called on an invertible map only. -/
def GeoM.Invert (g : GeoM K) : GeoM K :=
  let det := g.det
  ⟨g.d / det, -g.b / det, -g.c / det, g.a / det,
    (-g.d * g.tx + g.b * g.ty) / det, (g.c * g.tx + -g.a * g.ty) / det⟩

/-- The functions of package `math` that are not field operations: `math.Sincos` and the
constant `math.Pi`. -/
structure MathFns (K : Type) where
  Sincos : K → K × K
  Pi : K

/-- `math.Pow(x, float64(n))` for an integer `n`. -/
def powInt (x : K) (n : Int) : K := x ^ n

/-- `Viewport.GetMatrix`. -/
def Viewport.GetMatrix (mf : MathFns K) (v : Viewport K) : GeoM K :=
  let matrix : GeoM K := GeoM.identity
  let cx := v.GetCenter.1
  let cy := v.GetCenter.2
  let matrix := matrix.Translate (-cx) (-cy)
  let matrix :=
    if v.ZoomFactor ≠ 0 then
      matrix.Scale (powInt (101 / 100) v.ZoomFactor) (powInt (101 / 100) v.ZoomFactor)
    else
      matrix.Scale (powInt 1 v.ZoomFactor) (powInt 1 v.ZoomFactor)
  let matrix := GeoM.Rotate mf.Sincos matrix ((v.Rotation : K) * 2 * mf.Pi / 360)
  matrix.Translate cx cy

/-- `Viewport.ScreenToWorld`; `none` stands for the vector of two NaN. -/
def Viewport.ScreenToWorld (mf : MathFns K) (v : Viewport K) (posX posY : Int) :
    Option (Vec2 K) :=
  let inverseMatrix := v.GetMatrix mf
  if inverseMatrix.IsInvertible then
    let inverseMatrix := inverseMatrix.Invert
    let w := inverseMatrix.Apply (posX : K) (posY : K)
    some (w.1, w.2)
  else none

/-- `Viewport.GetOffsets`. -/
def Viewport.GetOffsets (v : Viewport K) : K × K :=
  let cx := v.Position.1 + v.ViewSize.1 / 2
  let cy := v.Position.2 + v.ViewSize.2 / 2
  let dx := cx - v.ViewSize.1 / 2
  let dy := cy - v.ViewSize.2 / 2
  (-dx, -dy)

/-- `Viewport.GetOffsetMatrix`. -/
def Viewport.GetOffsetMatrix (v : Viewport K) : GeoM K :=
  let matrix : GeoM K := GeoM.identity
  matrix.Translate v.GetOffsets.1 v.GetOffsets.2

/-! ## shaker.go and screen.go -/

/-- The struct `Shaker`. -/
structure Shaker (K : Type) where
  ShakeIntensity : K
  MaxShakeIntensity : K
  ShakeDuration : K

/-- `shaker.New`. -/
def shaker.New : Shaker K :=
  { MaxShakeIntensity := 10
    ShakeIntensity := 1
    ShakeDuration := 1 }

/-- The process-wide random source of package `math/rand`: `draws n` is the value that the
`n`-th call of `rand.Float64` returns and `calls` counts the calls made so far. -/
structure Rand (K : Type) where
  draws : Nat → K
  calls : Nat

/-- `rand.Float64`: the next value of the source, and the source after the call. -/
def Rand.Float64 (r : Rand K) : K × Rand K :=
  (r.draws r.calls, { r with calls := r.calls + 1 })

/-- `gfx.Lerp` of the library `peterhellberg/gfx`, the linear interpolation between `a` and
`b`. -/
def gfx.Lerp (a b t : K) : K := a + (b - a) * t

/-- `Shaker.Shake`. -/
def Shaker.Shake (s : Shaker K) : Shaker K :=
  { s with ShakeIntensity := 0 }

/-- `Shaker.SetShakeIntensity`. -/
def Shaker.SetShakeIntensity (s : Shaker K) (maxIntensity : K) : Shaker K :=
  { s with MaxShakeIntensity := maxIntensity, ShakeDuration := maxIntensity / 10 }

/-- `Shaker.Update`; the returned error is always `nil`. -/
def Shaker.Update (s : Shaker K) : Shaker K :=
  { s with ShakeIntensity := s.ShakeIntensity + 1 / 60 }

/-- `Shaker.GetOffsets`: the offsets, and the random source after the call. -/
def Shaker.GetOffsets (s : Shaker K) (rng : Rand K) : (K × K) × Rand K :=
  if s.ShakeIntensity < 1 then
    let lerped := gfx.Lerp s.ShakeDuration 0 s.ShakeIntensity
    let amplitude := s.MaxShakeIntensity * lerped
    let r1 := rng.Float64
    let dx := amplitude * (2 * r1.1 - 1)
    let r2 := r1.2.Float64
    let dy := amplitude * (2 * r2.1 - 1)
    ((dx, dy), r2.2)
  else ((0, 0), rng)

/-- A call on a shaker that changes its state. -/
inductive ShakerCall (K : Type) where
  | Shake
  | SetShakeIntensity (maxIntensity : K)
  | Update

/-- The call is `Shake`. -/
def ShakerCall.isShake : ShakerCall K → Bool
  | .Shake => true
  | _ => false

/-- Perform one call on a shaker. -/
def Shaker.applyCall (s : Shaker K) : ShakerCall K → Shaker K
  | .Shake => s.Shake
  | .SetShakeIntensity m => s.SetShakeIntensity m
  | .Update => s.Update

/-- Perform a sequence of calls on a shaker, in order. -/
def Shaker.applyCalls (s : Shaker K) (cs : List (ShakerCall K)) : Shaker K :=
  cs.foldl Shaker.applyCall s

/-- The struct `CustomScreen`.  `Image` is the size given to `ebiten.NewImage`, `Viewport` is
`none` for a nil pointer and `DrawOP` is the `GeoM` of the draw options. -/
structure CustomScreen (K : Type) where
  ScreenSize : Vec2 K
  WorldSize : Vec2 K
  Image : Int × Int
  Viewport : Option (Viewport K)
  Shaker : Shaker K
  DrawOP : GeoM K
  Debug : Bool
  AutoScaling : Bool
  AutoPadding : Bool
  StaticViewport : Bool

/-- `screen.New`; an error is `Except.error` with the message, and allocating the image is
taken to succeed. -/
def screen.New (k : Constants) (screenWidth screenHeight worldWidth worldHeight : Int)
    (viewport : Option (Viewport K)) : Except String (CustomScreen K) :=
  let mk (autoPadding : Bool) (worldWidth worldHeight : Int) : CustomScreen K :=
    { Image := (worldWidth, worldHeight)
      ScreenSize := ((screenWidth : K), (screenHeight : K))
      WorldSize := ((worldWidth : K), (worldHeight : K))
      Viewport := viewport
      Shaker := shaker.New
      DrawOP := GeoM.identity
      Debug := false
      AutoScaling := true
      StaticViewport := viewport.isNone
      AutoPadding := autoPadding }
  if screenWidth = worldWidth ∧ screenHeight = worldHeight then
    if viewport.isSome then
      .error "viewport should be nil when screen-size equals world-size"
    else
      .ok (mk true (wrapInt (worldWidth + k.AUTO_PADDING * 2))
        (wrapInt (worldHeight + k.AUTO_PADDING * 2)))
  else
    if viewport.isNone then
      .error "viewport cannot be nil if screen-size and world-size are different"
    else
      .ok (mk false worldWidth worldHeight)

/-- The result of a constructor is an error. -/
def isError {ε α : Type} : Except ε α → Bool
  | .error _ => true
  | .ok _ => false

/-- The conversion `int(x)` of a float, which drops the fraction. -/
def truncInt [FloorRing K] (x : K) : Int :=
  if 0 ≤ x then Int.floor x else Int.ceil x

/-- `CustomScreen.SetDebug`. -/
def CustomScreen.SetDebug (s : CustomScreen K) (debugOn : Bool) : CustomScreen K :=
  { s with Debug := debugOn }

/-- `CustomScreen.Update`. -/
def CustomScreen.Update (s : CustomScreen K) : CustomScreen K :=
  { s with Shaker := s.Shaker.Update }

/-- `CustomScreen.GetOffsets`. -/
def CustomScreen.GetOffsets (k : Constants) (s : CustomScreen K) : K × K :=
  let d : K × K :=
    match s.Viewport with
    | some vp => vp.GetOffsets
    | none => (0, 0)
  if s.AutoPadding && s.Viewport.isNone then
    (d.1 + (k.AUTO_PADDING : K), d.2 + (k.AUTO_PADDING : K))
  else d

/-- `CustomScreen.GetOffsetMatrix`. -/
def CustomScreen.GetOffsetMatrix (k : Constants) (s : CustomScreen K) : GeoM K :=
  let offsetMatrix : GeoM K :=
    match s.Viewport with
    | some vp => vp.GetOffsetMatrix
    | none => GeoM.identity
  if s.AutoPadding && s.Viewport.isNone then
    offsetMatrix.Translate (k.AUTO_PADDING : K) (k.AUTO_PADDING : K)
  else offsetMatrix

/-- `CustomScreen.DrawImage`: the transform with which the image is drawn on the surface. -/
def CustomScreen.DrawImage (k : Constants) (s : CustomScreen K) (op : GeoM K) : GeoM K :=
  op.Concat (s.GetOffsetMatrix k)

/-- `CustomScreen.DrawLine`: the end points given to `utils.DrawLine`. -/
def CustomScreen.DrawLine (k : Constants) (s : CustomScreen K) (x1 y1 x2 y2 : K) :
    (K × K) × (K × K) :=
  let off := s.GetOffsets k
  ((x1 + off.1, y1 + off.2), (x2 + off.1, y2 + off.2))

/-- `CustomScreen.DrawRect`: the corner and the size given to `utils.DrawRect`. -/
def CustomScreen.DrawRect (k : Constants) (s : CustomScreen K) (x y width height : K) :
    (K × K) × (K × K) :=
  let off := s.GetOffsets k
  ((x + off.1, y + off.2), (width, height))

/-- `CustomScreen.drawCameraFocusArea`: the four lines it draws; the debug text is not
modelled.  `none` is the panic of reading a field through the nil viewport. -/
def CustomScreen.drawCameraFocusArea (k : Constants) (s : CustomScreen K) :
    Option (List ((K × K) × (K × K))) :=
  match s.Viewport with
  | none => none
  | some vp =>
    let cFocusCenter := vp.Camera.GetFocus.1
    let cFocusView := vp.Camera.GetFocus.2
    let x1 := cFocusCenter.1 - cFocusView.1 / 2
    let x2 := x1 + cFocusView.1
    let y1 := cFocusCenter.2 - cFocusView.2 / 2
    let y2 := y1 + cFocusView.2
    some [s.DrawLine k x1 y1 x2 y1, s.DrawLine k (x1 + 1) y1 (x1 + 1) y2,
      s.DrawLine k x2 y1 x2 y2, s.DrawLine k x1 (y2 - 1) x2 (y2 - 1)]

/-- The transform that `CustomScreen.Render` builds in `DrawOP` (lines 90 to 110 of
screen.go) from the shake offsets and the size of the target; `none` is the panic of reading
a field through the nil viewport. -/
def CustomScreen.renderGeoM [FloorRing K] (mf : MathFns K) (k : Constants) (s : CustomScreen K)
    (sdx sdy : K) (resX resY : Int) : Option (GeoM K) :=
  let geom := s.DrawOP.Reset
  let geom := geom.Translate (-sdx) (-sdy)
  let placed : Option (GeoM K) :=
    if s.AutoPadding && s.Viewport.isNone then
      some (geom.Translate (-(k.AUTO_PADDING : K)) (-(k.AUTO_PADDING : K)))
    else
      match s.Viewport with
      | none => none
      | some vp => some (geom.Concat (vp.GetMatrix mf))
  match placed with
  | none => none
  | some geom =>
    if s.AutoScaling then
      if resX ≠ truncInt s.ScreenSize.1 ∨ resY ≠ truncInt s.ScreenSize.2 then
        some (geom.Scale ((resX : K) / s.ScreenSize.1) ((resY : K) / s.ScreenSize.2))
      else some geom
    else some geom

/-- `CustomScreen.Render` on a target of size `resX` by `resY`: the screen afterwards, whose
`DrawOP` is the transform of the final `DrawImage` onto the target, and the random source
afterwards.  `none` is a panic. -/
def CustomScreen.Render [FloorRing K] (mf : MathFns K) (k : Constants) (s : CustomScreen K)
    (resX resY : Int) (rng : Rand K) : Option (CustomScreen K × Rand K) :=
  let sd := s.Shaker.GetOffsets rng
  match s.renderGeoM mf k sd.1.1 sd.1.2 resX resY with
  | none => none
  | some geom =>
    let s1 := { s with DrawOP := geom }
    match s1.drawCameraFocusArea k with
    | none => none
    | some _ => some (s1, sd.2)

/-- A call that changes a viewport. -/
inductive ViewCall (K : Type) where
  | MoveBy (dx dy : K)
  | MoveTo (x y : K)
  | ZoomBy (dz : Int)
  | SetZoom (z : Int)
  | SetRotation (r : Int)
  | RoatateBy (dr : Int)
  | SetMargin (margin : K)

/-- Perform one call on a viewport. -/
def Viewport.applyCall (k : Constants) (v : Viewport K) : ViewCall K → Viewport K
  | .MoveBy dx dy => v.MoveBy dx dy
  | .MoveTo x y => v.MoveTo x y
  | .ZoomBy dz => v.ZoomBy k dz
  | .SetZoom z => v.SetZoom k z
  | .SetRotation r => v.SetRotation r
  | .RoatateBy dr => v.RoatateBy dr
  | .SetMargin m => v.SetMargin m

/-- Perform a sequence of calls on a viewport, in order. -/
def Viewport.applyCalls (k : Constants) (v : Viewport K) (cs : List (ViewCall K)) :
    Viewport K :=
  cs.foldl (Viewport.applyCall k) v

/-- A call that changes the zoom level. -/
inductive Zoom where
  | By (dz : Int)
  | Set (z : Int)

/-- The argument of a zoom call. -/
def Zoom.arg : Zoom → Int
  | .By dz => dz
  | .Set z => z

/-- Perform one zoom call. -/
def Viewport.applyZoom (k : Constants) (v : Viewport K) : Zoom → Viewport K
  | .By dz => v.ZoomBy k dz
  | .Set z => v.SetZoom k z

/-- The viewport after each call of a sequence of zoom calls, in order. -/
def Viewport.zoomTrace (k : Constants) (v : Viewport K) : List Zoom → List (Viewport K)
  | [] => []
  | z :: zs => v.applyZoom k z :: (v.applyZoom k z).zoomTrace k zs

/-- The zoom level is strictly between the two bounds. -/
def Viewport.ZoomInRange (k : Constants) (v : Viewport K) : Prop :=
  k.MIN_VIEWPORT_ZOOM < v.ZoomFactor ∧ v.ZoomFactor < k.MAX_VIEWPORT_ZOOM

instance (k : Constants) (v : Viewport K) : Decidable (v.ZoomInRange k) := by
  unfold Viewport.ZoomInRange; infer_instance

/-- The bounds predicate of a viewport: the view rectangle keeps the margin to every edge of
the world. -/
def Viewport.InBounds (v : Viewport K) : Prop :=
  v.Margin ≤ v.Position.1 ∧ v.Position.1 + v.ViewSize.1 ≤ v.WorldSize.1 - v.Margin ∧
  v.Margin ≤ v.Position.2 ∧ v.Position.2 + v.ViewSize.2 ≤ v.WorldSize.2 - v.Margin

instance (v : Viewport K) : Decidable v.InBounds := by
  unfold Viewport.InBounds; infer_instance

/-- The view together with its margins fits in the world. -/
def Viewport.Fits (v : Viewport K) : Prop :=
  0 ≤ v.Margin ∧ v.ViewSize.1 + 2 * v.Margin ≤ v.WorldSize.1 ∧
  v.ViewSize.2 + 2 * v.Margin ≤ v.WorldSize.2

instance (v : Viewport K) : Decidable v.Fits := by
  unfold Viewport.Fits; infer_instance

/-- A call that moves the viewport. -/
inductive Move (K : Type) where
  | By (dx dy : K)
  | To (x y : K)

/-- Perform one move call. -/
def Viewport.applyMove (v : Viewport K) : Move K → Viewport K
  | .By dx dy => v.MoveBy dx dy
  | .To x y => v.MoveTo x y

/-- The viewport after each call of a sequence of move calls, in order. -/
def Viewport.moveTrace (v : Viewport K) : List (Move K) → List (Viewport K)
  | [] => []
  | m :: ms => v.applyMove m :: (v.applyMove m).moveTrace ms

end Ordered

/-- The viewport of the example program: view 320x240 in a world 420x420, centre (160, 120). -/
def exampleViewport : Viewport ℚ := viewport.New 320 240 420 420 160 120

/-- The example viewport moved by `(-50, 0)` while leaving the world is allowed, with the
bounds switched on again afterwards. -/
def strayViewport : Viewport ℚ :=
  { ({ exampleViewport with AllowOutOfBounds := true }.MoveBy (-50) 0) with
    AllowOutOfBounds := false }

/-- A camera whose focus box, centred at the world origin, sticks out of the world. -/
def cornerCam : FocusBoxCam ℚ := camera.New 420 420 60 60 0 0

/-- The camera that `viewport.New` creates, with leaving the world allowed. -/
def freeCam : FocusBoxCam ℚ := (camera.New 420 420 60 60 160 120).OverflowAllowed true

/-- A random source whose draws alternate between 0 and 3/4. -/
def exampleRand : Rand ℚ := ⟨fun n => if n % 2 = 0 then 0 else 3 / 4, 0⟩

/-- The shaker of the example program, `New()` followed by `SetShakeIntensity(7.5)`, `Shake()`
and fifteen calls of `Update()`: intensity 1/4, maximum 15/2, duration 3/4. -/
def quarterShaker : Shaker ℚ :=
  Shaker.Update^[15] ((shaker.New : Shaker ℚ).SetShakeIntensity (15 / 2)).Shake

/-- The viewport `New(320, 240, 420, 420, 0, 0)`, centred at the origin of the world. -/
def originViewport : Viewport ℚ := viewport.New 320 240 420 420 0 0

/-- Stand-in for the functions of package `math` over the rationals: exact at the angle 0,
the only angle at which the examples below evaluate it. -/
def rationalMath : MathFns ℚ := ⟨fun _ => (0, 1), 22 / 7⟩

/-- The values assumed for the constants in the examples. -/
def exampleConstants : Constants := ⟨-100, 100, 20⟩

/-- The screen of the example program, `screen.New(320, 240, 420, 420, viewport)`. -/
def exampleScreen : CustomScreen ℚ :=
  { Image := (420, 420)
    ScreenSize := (320, 240)
    WorldSize := (420, 420)
    Viewport := some exampleViewport
    Shaker := shaker.New
    DrawOP := GeoM.identity
    Debug := false
    AutoScaling := true
    StaticViewport := false
    AutoPadding := false }

/-- The screen `screen.New(320, 240, 320, 240, nil)`, in auto-padding mode. -/
def paddedScreen : CustomScreen ℚ :=
  { Image := (360, 280)
    ScreenSize := (320, 240)
    WorldSize := (360, 280)
    Viewport := none
    Shaker := shaker.New
    DrawOP := GeoM.identity
    Debug := false
    AutoScaling := true
    StaticViewport := true
    AutoPadding := true }

/-- The example viewport moved to (50, 90), where its centre is the centre of the world. -/
def centredViewport : Viewport ℚ := exampleViewport.MoveTo 50 90

/-- The screen of the example program after the viewport has moved to (100, 0). -/
def movedScreen : CustomScreen ℚ :=
  { exampleScreen with Viewport := some (exampleViewport.MoveTo 100 0) }

/-- The screen of the example program after the viewport has moved to (100, 0) and zoomed in
by one level. -/
def zoomedScreen : CustomScreen ℚ :=
  { exampleScreen with
    Viewport := some ((exampleViewport.MoveTo 100 0).ZoomBy exampleConstants 1) }

section Proofs

variable {K : Type} [LinearOrderedField K]

theorem Viewport.applyMove_frame (v : Viewport K) (m : Move K) :
    (v.applyMove m).AllowOutOfBounds = v.AllowOutOfBounds ∧
    (v.applyMove m).Margin = v.Margin ∧ (v.applyMove m).ViewSize = v.ViewSize ∧
    (v.applyMove m).WorldSize = v.WorldSize := by
  cases m <;> simp only [Viewport.applyMove, Viewport.MoveBy, Viewport.MoveTo] <;>
    split <;> simp

theorem Viewport.applyMove_inBounds (v : Viewport K) (m : Move K)
    (hb : v.AllowOutOfBounds = false) (hf : v.Fits) : (v.applyMove m).InBounds := by
  obtain ⟨h0, h1, h2⟩ := hf
  cases m <;>
    simp only [Viewport.applyMove, Viewport.MoveBy, Viewport.MoveTo, hb, Viewport.OutOfBounds,
      Viewport.InBounds, Bool.not_false, if_true] <;>
    refine ⟨?_, ?_, ?_, ?_⟩ <;> dsimp only <;> split_ifs <;> linarith

/-- C1: with `AllowOutOfBounds` false and a view that fits in the world together with its
margins, the viewport is inside the margin bounds after each call of any sequence of
`MoveBy` and `MoveTo` calls, whatever the starting position. -/
theorem C1_moves_stay_in_bounds (v : Viewport K) (hb : v.AllowOutOfBounds = false)
    (hf : v.Fits) (ms : List (Move K)) : ∀ s ∈ v.moveTrace ms, s.InBounds := by
  induction ms generalizing v with
  | nil => intro s hs; simp [Viewport.moveTrace] at hs
  | cons m ms ih =>
    intro s hs
    simp only [Viewport.moveTrace, List.mem_cons] at hs
    obtain ⟨e1, e2, e3, e4⟩ := v.applyMove_frame m
    rcases hs with rfl | hs
    · exact v.applyMove_inBounds m hb hf
    · refine ih (v.applyMove m) (by rw [e1, hb]) ?_ s hs
      unfold Viewport.Fits at hf ⊢
      rw [e2, e3, e4]; exact hf

/-- C1, the scenario of the example program: the position brought to x = -50 with the bounds
off is clamped back to x = 0 by the next move with the bounds on. -/
theorem C1_moves_stay_in_bounds_witness :
    strayViewport.Position.1 = -50 ∧ strayViewport.AllowOutOfBounds = false ∧
    strayViewport.Fits ∧ (strayViewport.MoveBy 0 0).Position.1 = 0 ∧
    (strayViewport.MoveBy (-50) 0).Position.1 = 0 ∧
    ∀ s ∈ strayViewport.moveTrace [Move.By (-50) 0, Move.To 500 (-3), Move.By 7 7],
      s.InBounds := by
  have hb : strayViewport.AllowOutOfBounds = false := rfl
  have hf : strayViewport.Fits := by
    norm_num [Viewport.Fits, strayViewport, exampleViewport, viewport.New, Viewport.MoveBy]
  refine ⟨?_, hb, hf, ?_, ?_, C1_moves_stay_in_bounds strayViewport hb hf _⟩ <;>
    norm_num [strayViewport, exampleViewport, viewport.New, Viewport.MoveBy,
      Viewport.OutOfBounds]

theorem FocusBoxCam.Update_of_allow {σ : Type} (c : FocusBoxCam K) (cb : K → K → σ → σ)
    (x y : K) (s : σ) (ha : c.AllowOutOfBounds = true) :
    c.Update cb x y s =
      ({ c with FocusPoint := (c.FocusPoint.1 + (c.focusDelta x y).1,
                               c.FocusPoint.2 + (c.focusDelta x y).2) },
        cb (c.focusDelta x y).1 (c.focusDelta x y).2 s) := by
  simp [FocusBoxCam.Update, ha]

theorem FocusBoxCam.Update_of_not_allow {σ : Type} (c : FocusBoxCam K) (cb : K → K → σ → σ)
    (x y : K) (s : σ) (ha : c.AllowOutOfBounds = false) :
    c.Update cb x y s =
      ({ c with FocusPoint :=
          (c.FocusPoint.1 + ((c.focusDelta x y).1 +
              (c.CheckWorldOverflow (c.FocusPoint.1 + (c.focusDelta x y).1)
                (c.FocusPoint.2 + (c.focusDelta x y).2)).1),
           c.FocusPoint.2 + ((c.focusDelta x y).2 +
              (c.CheckWorldOverflow (c.FocusPoint.1 + (c.focusDelta x y).1)
                (c.FocusPoint.2 + (c.focusDelta x y).2)).2)) },
        cb ((c.focusDelta x y).1 +
              (c.CheckWorldOverflow (c.FocusPoint.1 + (c.focusDelta x y).1)
                (c.FocusPoint.2 + (c.focusDelta x y).2)).1)
           ((c.focusDelta x y).2 +
              (c.CheckWorldOverflow (c.FocusPoint.1 + (c.focusDelta x y).1)
                (c.FocusPoint.2 + (c.focusDelta x y).2)).2) s) := by
  simp [FocusBoxCam.Update, ha]

theorem FocusBoxCam.focusDelta_fst (c : FocusBoxCam K) (x y : K) :
    (c.focusDelta x y).1 =
      if x > c.FocusPoint.1 + c.FocusSize.1 / 2 then x - (c.FocusPoint.1 + c.FocusSize.1 / 2)
      else if x < c.FocusPoint.1 - c.FocusSize.1 / 2 then
        x - (c.FocusPoint.1 - c.FocusSize.1 / 2)
      else 0 := by
  simp only [FocusBoxCam.focusDelta]

theorem FocusBoxCam.focusDelta_snd (c : FocusBoxCam K) (x y : K) :
    (c.focusDelta x y).2 =
      if y > c.FocusPoint.2 + c.FocusSize.2 / 2 then y - (c.FocusPoint.2 + c.FocusSize.2 / 2)
      else if y < c.FocusPoint.2 - c.FocusSize.2 / 2 then
        y - (c.FocusPoint.2 - c.FocusSize.2 / 2)
      else 0 := by
  simp only [FocusBoxCam.focusDelta]

/-- The one-axis fact behind the edge snap: with half extent `h ≥ 0`, the delta computed
for a target `x` and a box centred at `p` re-contains `x`, and no displacement that
re-contains `x` is smaller in absolute value. -/
theorem snap_minimal (p h x : K) (hh : 0 ≤ h) :
    let dx := if x > p + h then x - (p + h) else if x < p - h then x - (p - h) else 0
    (p + dx - h ≤ x ∧ x ≤ p + dx + h) ∧
    (∀ d : K, p + d - h ≤ x → x ≤ p + d + h → |dx| ≤ |d|) ∧
    (p - h ≤ x → x ≤ p + h → dx = 0) := by
  intro dx
  refine ⟨?_, ?_, ?_⟩
  · simp only [dx]; split_ifs <;> constructor <;> linarith
  · intro d h1 h2
    simp only [dx]
    split_ifs with ha hb
    · rw [abs_of_pos (by linarith), abs_of_pos (by linarith)]; linarith
    · rw [abs_of_neg (by linarith), abs_of_neg (by linarith)]; linarith
    · simp
  · intro h1 h2
    simp only [dx]
    rw [if_neg (by linarith), if_neg (by linarith)]

/-- C2: with `AllowOutOfBounds` true and a non-negative focus size, after `Update(x, y)` the
target lies in the closed focus box of the new focus point; on each axis the displacement of
the focus point is the smallest, in absolute value, of all displacements with that effect;
it is 0 when the target was inside already and the overflow past the nearest edge
otherwise. -/
theorem C2_update_minimal_snap {σ : Type} (c : FocusBoxCam K) (cb : K → K → σ → σ)
    (x y : K) (s : σ) (ha : c.AllowOutOfBounds = true)
    (hw : 0 ≤ c.FocusSize.1) (hh : 0 ≤ c.FocusSize.2) :
    (c.Update cb x y s).1.InFocus x y ∧
    (∀ d : K, c.FocusPoint.1 + d - c.FocusSize.1 / 2 ≤ x →
        x ≤ c.FocusPoint.1 + d + c.FocusSize.1 / 2 →
        |(c.Update cb x y s).1.FocusPoint.1 - c.FocusPoint.1| ≤ |d|) ∧
    (∀ d : K, c.FocusPoint.2 + d - c.FocusSize.2 / 2 ≤ y →
        y ≤ c.FocusPoint.2 + d + c.FocusSize.2 / 2 →
        |(c.Update cb x y s).1.FocusPoint.2 - c.FocusPoint.2| ≤ |d|) ∧
    (c.InFocus x y → (c.Update cb x y s).1.FocusPoint = c.FocusPoint) ∧
    (x > c.FocusPoint.1 + c.FocusSize.1 / 2 →
        (c.Update cb x y s).1.FocusPoint.1 - c.FocusPoint.1 =
          x - (c.FocusPoint.1 + c.FocusSize.1 / 2)) ∧
    (x < c.FocusPoint.1 - c.FocusSize.1 / 2 →
        (c.Update cb x y s).1.FocusPoint.1 - c.FocusPoint.1 =
          x - (c.FocusPoint.1 - c.FocusSize.1 / 2)) ∧
    (y > c.FocusPoint.2 + c.FocusSize.2 / 2 →
        (c.Update cb x y s).1.FocusPoint.2 - c.FocusPoint.2 =
          y - (c.FocusPoint.2 + c.FocusSize.2 / 2)) ∧
    (y < c.FocusPoint.2 - c.FocusSize.2 / 2 →
        (c.Update cb x y s).1.FocusPoint.2 - c.FocusPoint.2 =
          y - (c.FocusPoint.2 - c.FocusSize.2 / 2)) := by
  have hw2 : 0 ≤ c.FocusSize.1 / 2 := by linarith
  have hh2 : 0 ≤ c.FocusSize.2 / 2 := by linarith
  obtain ⟨⟨a1, a2⟩, a3, a4⟩ := snap_minimal c.FocusPoint.1 (c.FocusSize.1 / 2) x hw2
  obtain ⟨⟨b1, b2⟩, b3, b4⟩ := snap_minimal c.FocusPoint.2 (c.FocusSize.2 / 2) y hh2
  rw [c.Update_of_allow cb x y s ha]
  simp only [FocusBoxCam.InFocus, c.focusDelta_fst x y, c.focusDelta_snd x y,
    add_sub_cancel_left]
  refine ⟨⟨a1, a2, b1, b2⟩, a3, b3, ?_, ?_, ?_, ?_, ?_⟩
  · rintro ⟨h1, h2, h3, h4⟩
    rw [a4 h1 h2, b4 h3 h4]; simp
  · intro h; rw [if_pos h]
  · intro h; rw [if_neg (by linarith), if_pos h]
  · intro h; rw [if_pos h]
  · intro h; rw [if_neg (by linarith), if_pos h]

/-- C2 at the camera of the example program with a target right of and above the box. -/
theorem C2_update_minimal_snap_witness :
    freeCam.AllowOutOfBounds = true ∧ (0 : ℚ) ≤ freeCam.FocusSize.1 ∧
    (0 : ℚ) ≤ freeCam.FocusSize.2 ∧
    (freeCam.Update recordCall 400 10 []).1.FocusPoint = (370, 40) ∧
    (freeCam.Update recordCall 400 10 []).1.InFocus 400 10 := by
  have h1 : (0 : ℚ) ≤ freeCam.FocusSize.1 := by
    norm_num [freeCam, FocusBoxCam.OverflowAllowed, camera.New]
  have h2 : (0 : ℚ) ≤ freeCam.FocusSize.2 := by
    norm_num [freeCam, FocusBoxCam.OverflowAllowed, camera.New]
  refine ⟨rfl, h1, h2, ?_, (C2_update_minimal_snap freeCam recordCall 400 10 [] rfl h1 h2).1⟩
  norm_num [freeCam, FocusBoxCam.OverflowAllowed, camera.New, FocusBoxCam.Update,
    FocusBoxCam.focusDelta]

theorem FocusBoxCam.focusDelta_of_strict (c : FocusBoxCam K) (x y : K)
    (h : c.StrictlyInFocus x y) : c.focusDelta x y = (0, 0) := by
  obtain ⟨h1, h2, h3, h4⟩ := h
  refine Prod.ext ?_ ?_
  · rw [c.focusDelta_fst x y, if_neg (not_lt.mpr h2.le), if_neg (not_lt.mpr h1.le)]
  · rw [c.focusDelta_snd x y, if_neg (not_lt.mpr h4.le), if_neg (not_lt.mpr h3.le)]

theorem FocusBoxCam.CheckWorldOverflow_of_boxInWorld (c : FocusBoxCam K)
    (h : c.BoxInWorld) : c.CheckWorldOverflow c.FocusPoint.1 c.FocusPoint.2 = (0, 0) := by
  obtain ⟨h1, h2, h3, h4⟩ := h
  simp only [FocusBoxCam.CheckWorldOverflow]
  rw [if_neg (not_lt.mpr h1), if_neg (not_lt.mpr h2), if_neg (not_lt.mpr h3),
    if_neg (not_lt.mpr h4)]

/-- C3 as stated fails: the camera `camera.New(420, 420, 60, 60, 0, 0, cb)` forbids leaving
the world, the target (0, 0) is strictly inside its focus box, and yet `Update(0, 0)` passes
the delta (30, 30) to the callback and moves the focus point to (30, 30). -/
theorem C3_counterexample :
    cornerCam.StrictlyInFocus 0 0 ∧
    (cornerCam.Update recordCall 0 0 []).2 = [(30, 30)] ∧
    (cornerCam.Update recordCall 0 0 []).1.FocusPoint = (30, 30) ∧
    (cornerCam.Update recordCall 0 0 []).1.FocusPoint ≠ cornerCam.FocusPoint := by
  norm_num [cornerCam, camera.New, FocusBoxCam.StrictlyInFocus, FocusBoxCam.Update,
    FocusBoxCam.focusDelta, FocusBoxCam.CheckWorldOverflow, recordCall]

/-- C3, amended: when leaving the world is allowed, or the focus box lies inside the world,
`Update(x, y)` with a target strictly inside the focus box calls the callback once, with the
delta (0, 0), and leaves the camera as it was. -/
theorem C3_update_inside_is_noop {σ : Type} (c : FocusBoxCam K) (cb : K → K → σ → σ)
    (x y : K) (s : σ) (hc : c.AllowOutOfBounds = true ∨ c.BoxInWorld)
    (hin : c.StrictlyInFocus x y) :
    c.Update cb x y s = (c, cb 0 0 s) ∧
    (c.Update recordCall x y []).2 = [(0, 0)] := by
  have key : ∀ {τ : Type} (f : K → K → τ → τ) (t : τ), c.Update f x y t = (c, f 0 0 t) := by
    intro τ f t
    cases hb : c.AllowOutOfBounds with
    | true =>
      rw [c.Update_of_allow f x y t hb, c.focusDelta_of_strict x y hin]
      simp
    | false =>
      have hw : c.BoxInWorld := by
        rcases hc with h | h
        · rw [hb] at h; exact absurd h (by decide)
        · exact h
      rw [c.Update_of_not_allow f x y t hb, c.focusDelta_of_strict x y hin]
      simp only [add_zero]
      rw [c.CheckWorldOverflow_of_boxInWorld hw]
      simp
  exact ⟨key cb s, by rw [key recordCall []]; rfl⟩

/-- C3, amended, at the camera that `viewport.New` creates (leaving the world forbidden, focus
box inside the world) with the target (150, 130). -/
theorem C3_update_inside_is_noop_witness :
    ((camera.New 420 420 60 60 160 120 : FocusBoxCam ℚ).AllowOutOfBounds = true ∨
      (camera.New 420 420 60 60 160 120 : FocusBoxCam ℚ).BoxInWorld) ∧
    (camera.New 420 420 60 60 160 120 : FocusBoxCam ℚ).StrictlyInFocus 150 130 ∧
    (camera.New 420 420 60 60 160 120 : FocusBoxCam ℚ).Update recordCall 150 130 [] =
      (camera.New 420 420 60 60 160 120, [(0, 0)]) := by
  have hw : (camera.New 420 420 60 60 160 120 : FocusBoxCam ℚ).BoxInWorld := by
    norm_num [camera.New, FocusBoxCam.BoxInWorld]
  have hin : (camera.New 420 420 60 60 160 120 : FocusBoxCam ℚ).StrictlyInFocus 150 130 := by
    norm_num [camera.New, FocusBoxCam.StrictlyInFocus]
  exact ⟨Or.inr hw, hin,
    (C3_update_inside_is_noop _ recordCall 150 130 [] (Or.inr hw) hin).1⟩

/-- C4: with `AllowOutOfBounds` true, a positive focus size and a target to the right of the
right edge `rx` of the focus box, `Update(targetX, y)` invokes the callback exactly once, with
`dx = targetX - rx`, and the focus point moves right by that amount. -/
theorem C4_update_right_overflow {σ : Type} (c : FocusBoxCam K) (cb : K → K → σ → σ)
    (targetX y : K) (s : σ) (ha : c.AllowOutOfBounds = true)
    (_hw : 0 < c.FocusSize.1) (_hh : 0 < c.FocusSize.2)
    (hx : c.FocusPoint.1 + c.FocusSize.1 / 2 < targetX) :
    (c.Update recordCall targetX y []).2 =
      [(targetX - (c.FocusPoint.1 + c.FocusSize.1 / 2), (c.focusDelta targetX y).2)] ∧
    (c.Update cb targetX y s).2 =
      cb (targetX - (c.FocusPoint.1 + c.FocusSize.1 / 2)) (c.focusDelta targetX y).2 s ∧
    (c.Update cb targetX y s).1.FocusPoint.1 =
      c.FocusPoint.1 + (targetX - (c.FocusPoint.1 + c.FocusSize.1 / 2)) := by
  have hd : (c.focusDelta targetX y).1 = targetX - (c.FocusPoint.1 + c.FocusSize.1 / 2) := by
    rw [c.focusDelta_fst targetX y, if_pos hx]
  rw [c.Update_of_allow recordCall targetX y [] ha, c.Update_of_allow cb targetX y s ha, hd]
  exact ⟨rfl, rfl, rfl⟩

/-- C4 at the camera of the example program with the target half a box width past the right
edge: rx = 190, target 220, delta 30. -/
theorem C4_update_right_overflow_witness :
    freeCam.AllowOutOfBounds = true ∧ (0 : ℚ) < freeCam.FocusSize.1 ∧
    (0 : ℚ) < freeCam.FocusSize.2 ∧
    freeCam.FocusPoint.1 + freeCam.FocusSize.1 / 2 = 190 ∧
    (190 : ℚ) + freeCam.FocusSize.1 / 2 = 220 ∧
    (freeCam.Update recordCall 220 120 []).2 = [(220 - 190, 0)] ∧
    (freeCam.Update recordCall 220 120 []).1.FocusPoint.1 = 160 + 30 := by
  have h1 : (0 : ℚ) < freeCam.FocusSize.1 := by
    norm_num [freeCam, FocusBoxCam.OverflowAllowed, camera.New]
  have h2 : (0 : ℚ) < freeCam.FocusSize.2 := by
    norm_num [freeCam, FocusBoxCam.OverflowAllowed, camera.New]
  have h3 : freeCam.FocusPoint.1 + freeCam.FocusSize.1 / 2 = 190 := by
    norm_num [freeCam, FocusBoxCam.OverflowAllowed, camera.New]
  have h4 : freeCam.FocusPoint.1 + freeCam.FocusSize.1 / 2 < 220 := by
    rw [h3]; norm_num
  have h5 : (freeCam.focusDelta 220 120).2 = 0 := by
    norm_num [freeCam, FocusBoxCam.OverflowAllowed, camera.New, FocusBoxCam.focusDelta]
  have h6 : freeCam.FocusPoint.1 = 160 := rfl
  have h := C4_update_right_overflow freeCam recordCall 220 120 [] rfl h1 h2 h4
  rw [h3, h5, h6] at h
  refine ⟨rfl, h1, h2, h3, ?_, h.1, ?_⟩
  · norm_num [freeCam, FocusBoxCam.OverflowAllowed, camera.New]
  · rw [h.2.2]; norm_num

/-- One axis of the world check: a box of half extent `h` with `2h ≤ w`, centred at `p`
and corrected by the delta of `CheckWorldOverflow`, lies in `[0, w]`. -/
theorem world_clamp (p h w : K) (hw : h + h ≤ w) :
    let r := if p + h > w then w - (p + h) else if p - h < 0 then -(p - h) else 0
    0 ≤ p + r - h ∧ p + r + h ≤ w := by
  intro r
  simp only [r]
  split_ifs <;> constructor <;> linarith

/-- C5: with `AllowOutOfBounds` false and a focus box no larger than the world, after
`Update(x, y)` the focus box around the new focus point lies inside the world, for every
prior focus point and every target. -/
theorem C5_update_keeps_box_in_world {σ : Type} (c : FocusBoxCam K) (cb : K → K → σ → σ)
    (x y : K) (s : σ) (ha : c.AllowOutOfBounds = false)
    (_hw0 : 0 ≤ c.FocusSize.1) (hw1 : c.FocusSize.1 ≤ c.WorldSize.1)
    (_hh0 : 0 ≤ c.FocusSize.2) (hh1 : c.FocusSize.2 ≤ c.WorldSize.2) :
    (c.Update cb x y s).1.BoxInWorld := by
  rw [c.Update_of_not_allow cb x y s ha]
  have a := world_clamp (c.FocusPoint.1 + (c.focusDelta x y).1) (c.FocusSize.1 / 2)
    c.WorldSize.1 (by linarith)
  have b := world_clamp (c.FocusPoint.2 + (c.focusDelta x y).2) (c.FocusSize.2 / 2)
    c.WorldSize.2 (by linarith)
  simp only [FocusBoxCam.BoxInWorld, FocusBoxCam.CheckWorldOverflow, ← add_assoc] at a b ⊢
  exact ⟨a.1, a.2, b.1, b.2⟩

/-- C5 at the corner camera, whose focus box starts outside the world, with a target far
beyond the opposite corner. -/
theorem C5_update_keeps_box_in_world_witness :
    cornerCam.AllowOutOfBounds = false ∧ ¬ cornerCam.BoxInWorld ∧
    (0 : ℚ) ≤ cornerCam.FocusSize.1 ∧ cornerCam.FocusSize.1 ≤ cornerCam.WorldSize.1 ∧
    (0 : ℚ) ≤ cornerCam.FocusSize.2 ∧ cornerCam.FocusSize.2 ≤ cornerCam.WorldSize.2 ∧
    (cornerCam.Update recordCall 1000 1000 []).1.BoxInWorld := by
  have h1 : (0 : ℚ) ≤ cornerCam.FocusSize.1 := by norm_num [cornerCam, camera.New]
  have h2 : cornerCam.FocusSize.1 ≤ cornerCam.WorldSize.1 := by
    norm_num [cornerCam, camera.New]
  have h3 : (0 : ℚ) ≤ cornerCam.FocusSize.2 := by norm_num [cornerCam, camera.New]
  have h4 : cornerCam.FocusSize.2 ≤ cornerCam.WorldSize.2 := by
    norm_num [cornerCam, camera.New]
  refine ⟨rfl, ?_, h1, h2, h3, h4,
    C5_update_keeps_box_in_world cornerCam recordCall 1000 1000 [] rfl h1 h2 h3 h4⟩
  norm_num [cornerCam, camera.New, FocusBoxCam.BoxInWorld]

theorem Viewport.OutOfBounds_of_inBounds (v : Viewport K) (h : v.InBounds) :
    v.OutOfBounds = (0, 0) := by
  obtain ⟨h1, h2, h3, h4⟩ := h
  simp only [Viewport.OutOfBounds]
  rw [if_neg (not_lt.mpr h1), if_neg (not_lt.mpr h2), if_neg (not_lt.mpr h3),
    if_neg (not_lt.mpr h4)]

theorem Viewport.MoveBy_of_allow (v : Viewport K) (dx dy : K)
    (h : v.AllowOutOfBounds = true) :
    v.MoveBy dx dy = { v with Position := (v.Position.1 + dx, v.Position.2 + dy) } := by
  simp [Viewport.MoveBy, h]

theorem Viewport.MoveBy_of_inBounds (v : Viewport K) (dx dy : K)
    (h : ({ v with Position := (v.Position.1 + dx, v.Position.2 + dy) } : Viewport K).InBounds) :
    v.MoveBy dx dy = { v with Position := (v.Position.1 + dx, v.Position.2 + dy) } := by
  simp only [Viewport.MoveBy]
  split
  · rw [Viewport.OutOfBounds_of_inBounds _ h]; simp
  · rfl

theorem FocusBoxCam.Update_callback {σ : Type} (c : FocusBoxCam K) (cb : K → K → σ → σ)
    (x y : K) (s : σ) :
    (c.Update cb x y s).2 =
      cb ((c.Update cb x y s).1.FocusPoint.1 - c.FocusPoint.1)
        ((c.Update cb x y s).1.FocusPoint.2 - c.FocusPoint.2) s := by
  cases hb : c.AllowOutOfBounds with
  | true => rw [c.Update_of_allow cb x y s hb]; simp
  | false => rw [c.Update_of_not_allow cb x y s hb]; simp

theorem FocusBoxCam.Update_fst_indep {σ τ : Type} (c : FocusBoxCam K) (cb : K → K → σ → σ)
    (cb2 : K → K → τ → τ) (x y : K) (s : σ) (t : τ) :
    (c.Update cb x y s).1 = (c.Update cb2 x y t).1 := by
  cases hb : c.AllowOutOfBounds with
  | true => rw [c.Update_of_allow cb x y s hb, c.Update_of_allow cb2 x y t hb]
  | false => rw [c.Update_of_not_allow cb x y s hb, c.Update_of_not_allow cb2 x y t hb]

/-- C6 as stated fails: on the viewport of the example program (both flags false, as `New`
leaves them) `v.Camera.Update(400, 120)` moves the focus point by (210, 0) and the position
by (100, 0) only, because `MoveBy` clamps the view at the right edge of the world. -/
theorem C6_counterexample :
    exampleViewport.AllowOutOfBounds = exampleViewport.Camera.AllowOutOfBounds ∧
    exampleViewport.Position = (0, 0) ∧
    exampleViewport.Camera.FocusPoint = (160, 120) ∧
    (exampleViewport.CameraUpdate 400 120).Position = (100, 0) ∧
    (exampleViewport.CameraUpdate 400 120).Camera.FocusPoint = (370, 120) ∧
    (exampleViewport.CameraUpdate 400 120).Position.1 - exampleViewport.Position.1 ≠
      (exampleViewport.CameraUpdate 400 120).Camera.FocusPoint.1 -
        exampleViewport.Camera.FocusPoint.1 := by
  norm_num [exampleViewport, viewport.New, camera.New, Viewport.CameraUpdate,
    FocusBoxCam.Update, FocusBoxCam.focusDelta, FocusBoxCam.CheckWorldOverflow,
    Viewport.MoveBy, Viewport.OutOfBounds]

/-- C6, amended: for a viewport whose camera calls back `MoveBy` and has the same
out-of-bounds policy, if leaving the world is allowed, or the view shifted by the camera's
delta is still inside the margin bounds, then `v.Camera.Update(x, y)` changes the position by
exactly the change of the focus point, so position minus focus point is the same before and
after. -/
theorem C6_camera_viewport_lock_step (v : Viewport K) (x y : K)
    (_hp : v.AllowOutOfBounds = v.Camera.AllowOutOfBounds)
    (hc : v.AllowOutOfBounds = true ∨
      ({ v with Position :=
          (v.Position.1 + ((v.CameraUpdate x y).Camera.FocusPoint.1 - v.Camera.FocusPoint.1),
           v.Position.2 + ((v.CameraUpdate x y).Camera.FocusPoint.2 - v.Camera.FocusPoint.2)) }
        : Viewport K).InBounds) :
    (v.CameraUpdate x y).Position.1 - v.Position.1 =
      (v.CameraUpdate x y).Camera.FocusPoint.1 - v.Camera.FocusPoint.1 ∧
    (v.CameraUpdate x y).Position.2 - v.Position.2 =
      (v.CameraUpdate x y).Camera.FocusPoint.2 - v.Camera.FocusPoint.2 ∧
    (v.CameraUpdate x y).Position.1 - (v.CameraUpdate x y).Camera.FocusPoint.1 =
      v.Position.1 - v.Camera.FocusPoint.1 ∧
    (v.CameraUpdate x y).Position.2 - (v.CameraUpdate x y).Camera.FocusPoint.2 =
      v.Position.2 - v.Camera.FocusPoint.2 := by
  have hcam : (v.CameraUpdate x y).Camera =
      (v.Camera.Update (fun dx dy (s : Viewport K) => s.MoveBy dx dy) x y v).1 := rfl
  have hpos : (v.CameraUpdate x y).Position =
      (v.MoveBy ((v.CameraUpdate x y).Camera.FocusPoint.1 - v.Camera.FocusPoint.1)
        ((v.CameraUpdate x y).Camera.FocusPoint.2 - v.Camera.FocusPoint.2)).Position := by
    rw [hcam]
    simp only [Viewport.CameraUpdate]
    rw [v.Camera.Update_callback (fun dx dy (s : Viewport K) => s.MoveBy dx dy) x y v]
  have hmove : (v.CameraUpdate x y).Position =
      (v.Position.1 + ((v.CameraUpdate x y).Camera.FocusPoint.1 - v.Camera.FocusPoint.1),
       v.Position.2 + ((v.CameraUpdate x y).Camera.FocusPoint.2 - v.Camera.FocusPoint.2)) := by
    rw [hpos]
    rcases hc with h | h
    · rw [v.MoveBy_of_allow _ _ h]
    · rw [v.MoveBy_of_inBounds _ _ h]
  rw [hmove]
  refine ⟨?_, ?_, ?_, ?_⟩ <;> dsimp only <;> ring

/-- C6, amended, on the viewport of the example program with the target (200, 160): focus
point and position both move by (10, 10). -/
theorem C6_camera_viewport_lock_step_witness :
    exampleViewport.AllowOutOfBounds = exampleViewport.Camera.AllowOutOfBounds ∧
    (exampleViewport.CameraUpdate 200 160).Camera.FocusPoint = (170, 130) ∧
    (exampleViewport.CameraUpdate 200 160).Position.1 - exampleViewport.Position.1 =
      (exampleViewport.CameraUpdate 200 160).Camera.FocusPoint.1 -
        exampleViewport.Camera.FocusPoint.1 := by
  have hf : (exampleViewport.CameraUpdate 200 160).Camera.FocusPoint = (170, 130) := by
    norm_num [exampleViewport, viewport.New, camera.New, Viewport.CameraUpdate,
      FocusBoxCam.Update, FocusBoxCam.focusDelta, FocusBoxCam.CheckWorldOverflow]
  refine ⟨rfl, hf, (C6_camera_viewport_lock_step exampleViewport 200 160 rfl (Or.inr ?_)).1⟩
  rw [hf]
  norm_num [exampleViewport, viewport.New, camera.New, Viewport.InBounds]

theorem wrapInt_of_isInt64 (n : Int) (h : IsInt64 n) : wrapInt n = n := by
  unfold IsInt64 at h
  unfold wrapInt
  omega

theorem wrapInt_isInt64 (n : Int) : IsInt64 (wrapInt n) := by
  unfold IsInt64 wrapInt
  omega

/-- A sum of a level between the zoom bounds and a Go `int`, wrapped to 64 bits, lies between
the bounds only if the sum itself does, as long as the bounds are at most 2^62 in size. -/
theorem wrapInt_zoom_sum (lo hi a dz : Int) (hlo : -2 ^ 62 ≤ lo) (hhi : hi ≤ 2 ^ 62)
    (ha : lo < a ∧ a < hi) (hdz : IsInt64 dz) :
    (wrapInt (a + dz) > lo ∧ wrapInt (a + dz) < hi) ↔ (lo < a + dz ∧ a + dz < hi) := by
  unfold IsInt64 at hdz
  unfold wrapInt
  omega

end Proofs

section ZoomProofs

variable {K : Type}

theorem Viewport.applyZoom_inRange (k : Constants) (v : Viewport K) (z : Zoom)
    (hv : v.ZoomInRange k) : (v.applyZoom k z).ZoomInRange k := by
  cases z with
  | By dz =>
    simp only [Viewport.applyZoom, Viewport.ZoomBy]
    split
    · next h => exact ⟨h.1, h.2⟩
    · exact hv
  | Set z =>
    simp only [Viewport.applyZoom, Viewport.SetZoom]
    split
    · next h => exact ⟨h.1, h.2⟩
    · exact hv

/-- C7: a zoom level strictly between `MIN_VIEWPORT_ZOOM` and `MAX_VIEWPORT_ZOOM` stays
strictly between them after each call of any sequence of `ZoomBy` and `SetZoom` calls; a call
whose resulting level is not strictly between the bounds changes nothing and any other call
sets the level to `ZoomFactor + dz` (respectively `z`).  For `ZoomBy` the sum is the exact
integer sum whenever the two constants are at most 2^62 in size, so that the 64-bit addition
cannot wrap into the range. -/
theorem C7_zoom_stays_in_range (k : Constants) (v : Viewport K) (hv : v.ZoomInRange k)
    (zs : List Zoom) :
    (∀ s ∈ v.zoomTrace k zs, s.ZoomInRange k) ∧
    (-2 ^ 62 ≤ k.MIN_VIEWPORT_ZOOM → k.MAX_VIEWPORT_ZOOM ≤ 2 ^ 62 →
      ∀ u : Viewport K, u.ZoomInRange k → ∀ dz : Int, IsInt64 dz →
        u.ZoomBy k dz =
          if k.MIN_VIEWPORT_ZOOM < u.ZoomFactor + dz ∧ u.ZoomFactor + dz < k.MAX_VIEWPORT_ZOOM
          then { u with ZoomFactor := u.ZoomFactor + dz } else u) ∧
    (∀ (u : Viewport K) (z : Int),
        u.SetZoom k z =
          if k.MIN_VIEWPORT_ZOOM < z ∧ z < k.MAX_VIEWPORT_ZOOM
          then { u with ZoomFactor := z } else u) := by
  refine ⟨?_, ?_, ?_⟩
  · induction zs generalizing v with
    | nil => intro s hs; simp [Viewport.zoomTrace] at hs
    | cons z zs ih =>
      intro s hs
      simp only [Viewport.zoomTrace, List.mem_cons] at hs
      rcases hs with rfl | hs
      · exact v.applyZoom_inRange k z hv
      · exact ih (v.applyZoom k z) (v.applyZoom_inRange k z hv) s hs
  · intro hlo hhi u hu dz hdz
    have hiff := wrapInt_zoom_sum k.MIN_VIEWPORT_ZOOM k.MAX_VIEWPORT_ZOOM u.ZoomFactor dz
      hlo hhi hu hdz
    unfold Viewport.ZoomInRange at hu
    unfold IsInt64 at hdz
    by_cases hc : k.MIN_VIEWPORT_ZOOM < u.ZoomFactor + dz ∧
        u.ZoomFactor + dz < k.MAX_VIEWPORT_ZOOM
    · have hw : wrapInt (u.ZoomFactor + dz) = u.ZoomFactor + dz :=
        wrapInt_of_isInt64 _ (by unfold IsInt64; omega)
      rw [Viewport.ZoomBy, if_pos (hiff.mpr hc), if_pos hc, hw]
    · rw [Viewport.ZoomBy, if_neg (fun h => hc (hiff.mp h)), if_neg hc]
  · intro u z
    rfl

/-- C7 on the viewport of the example program with the bounds -100 and 100: the calls
`ZoomBy(99)`, `ZoomBy(1)`, `SetZoom(100)`, `SetZoom(-99)`, `ZoomBy(-1)` and a `ZoomBy` of the
largest `int` give the levels 99, 99, 99, -99, -99, -99. -/
theorem C7_zoom_stays_in_range_witness :
    exampleViewport.ZoomInRange ⟨-100, 100, 20⟩ ∧
    (exampleViewport.zoomTrace ⟨-100, 100, 20⟩
        [Zoom.By 99, Zoom.By 1, Zoom.Set 100, Zoom.Set (-99), Zoom.By (-1),
          Zoom.By (2 ^ 63 - 1)]).map (fun s => s.ZoomFactor) = [99, 99, 99, -99, -99, -99] ∧
    ∀ s ∈ exampleViewport.zoomTrace ⟨-100, 100, 20⟩
        [Zoom.By 99, Zoom.By 1, Zoom.Set 100, Zoom.Set (-99), Zoom.By (-1),
          Zoom.By (2 ^ 63 - 1)], s.ZoomInRange ⟨-100, 100, 20⟩ := by
  have hv : exampleViewport.ZoomInRange ⟨-100, 100, 20⟩ := by
    simp [Viewport.ZoomInRange, exampleViewport, viewport.New]
  refine ⟨hv, ?_, (C7_zoom_stays_in_range ⟨-100, 100, 20⟩ exampleViewport hv _).1⟩
  simp [Viewport.zoomTrace, Viewport.applyZoom, Viewport.ZoomBy, Viewport.SetZoom,
    exampleViewport, viewport.New, wrapInt]

end ZoomProofs

section FieldProofs

variable {K : Type} [LinearOrderedField K]

/-- C8: `screen.New` returns an error exactly when the screen size equals the world size and
a viewport is given, or the sizes differ on some axis and no viewport is given; in every other
case it returns a screen, which holds the given viewport and is in auto-padding mode exactly
when the sizes are equal. -/
theorem C8_screen_new_error_iff (k : Constants)
    (screenWidth screenHeight worldWidth worldHeight : Int) (viewport : Option (Viewport K)) :
    (isError (screen.New k screenWidth screenHeight worldWidth worldHeight viewport) = true ↔
      (screenWidth = worldWidth ∧ screenHeight = worldHeight ∧ viewport.isSome = true) ∨
      ((screenWidth ≠ worldWidth ∨ screenHeight ≠ worldHeight) ∧ viewport.isNone = true)) ∧
    (¬ ((screenWidth = worldWidth ∧ screenHeight = worldHeight ∧ viewport.isSome = true) ∨
        ((screenWidth ≠ worldWidth ∨ screenHeight ≠ worldHeight) ∧ viewport.isNone = true)) →
      ∃ scr : CustomScreen K,
        screen.New k screenWidth screenHeight worldWidth worldHeight viewport = .ok scr ∧
        scr.Viewport = viewport ∧
        scr.AutoPadding = decide (screenWidth = worldWidth ∧ screenHeight = worldHeight)) := by
  by_cases hs : screenWidth = worldWidth ∧ screenHeight = worldHeight
  · have hn : ¬ (screenWidth ≠ worldWidth ∨ screenHeight ≠ worldHeight) := by
      rintro (h | h)
      · exact h hs.1
      · exact h hs.2
    cases viewport with
    | none => simp [screen.New, hs, isError]
    | some vp => simp [screen.New, hs, isError]
  · have hn : screenWidth ≠ worldWidth ∨ screenHeight ≠ worldHeight := by
      by_contra hc
      push_neg at hc
      exact hs hc
    cases viewport with
    | none => simp [screen.New, hs, hn, isError]
    | some vp => simp [screen.New, hs, hn, isError]

/-- C9: `viewport.New` returns a viewport whose position and initial position are the centre
minus half the view size, the half being exact (twice the distance from the position to the
centre is the view size, also for an odd size), with zoom 0, rotation 0 and margin 0. -/
theorem C9_new_position (screenWidth screenHeight worldWidth worldHeight : Int)
    (centreX centreY : K) :
    (viewport.New screenWidth screenHeight worldWidth worldHeight centreX centreY).Position =
      (centreX - (screenWidth : K) / 2, centreY - (screenHeight : K) / 2) ∧
    (viewport.New screenWidth screenHeight worldWidth worldHeight centreX centreY).InitialPosition
      = (centreX - (screenWidth : K) / 2, centreY - (screenHeight : K) / 2) ∧
    2 * (centreX -
      (viewport.New screenWidth screenHeight worldWidth worldHeight centreX centreY).Position.1)
      = (screenWidth : K) ∧
    2 * (centreY -
      (viewport.New screenWidth screenHeight worldWidth worldHeight centreX centreY).Position.2)
      = (screenHeight : K) ∧
    (viewport.New screenWidth screenHeight worldWidth worldHeight centreX centreY).ZoomFactor
      = 0 ∧
    (viewport.New screenWidth screenHeight worldWidth worldHeight centreX centreY).Rotation
      = 0 ∧
    (viewport.New screenWidth screenHeight worldWidth worldHeight centreX centreY).Margin
      = 0 := by
  refine ⟨rfl, rfl, ?_, ?_, rfl, rfl, rfl⟩ <;> simp only [viewport.New] <;> ring

/-- C9, the scenario of the example program: `New(320, 240, 420, 420, 160, 120)` has position
(0, 0); and a view of odd size 5x3 centred at (0, 0) has position (-5/2, -3/2). -/
theorem C9_new_position_witness :
    (viewport.New 320 240 420 420 160 120 : Viewport ℚ).Position = (0, 0) ∧
    (viewport.New 320 240 420 420 160 120 : Viewport ℚ).InitialPosition = (0, 0) ∧
    (viewport.New 5 3 420 420 0 0 : Viewport ℚ).Position = (-5 / 2, -3 / 2) := by
  have h1 := C9_new_position (K := ℚ) 320 240 420 420 160 120
  have h2 := C9_new_position (K := ℚ) 5 3 420 420 0 0
  refine ⟨?_, ?_, ?_⟩
  · rw [h1.1]; norm_num
  · rw [h1.2.1]; norm_num
  · rw [h2.1]; norm_num

theorem GeoM.det_identity : (GeoM.identity : GeoM K).det = 1 := by
  simp [GeoM.identity, GeoM.det]

theorem GeoM.det_Translate (g : GeoM K) (tx ty : K) : (g.Translate tx ty).det = g.det := rfl

theorem GeoM.det_Scale (g : GeoM K) (x y : K) : (g.Scale x y).det = g.det * (x * y) := by
  simp only [GeoM.Scale, GeoM.det]; ring

theorem GeoM.det_Rotate (sincos : K → K × K)
    (hsc : ∀ t, (sincos t).1 ^ 2 + (sincos t).2 ^ 2 = 1) (g : GeoM K) (theta : K) :
    (GeoM.Rotate sincos g theta).det = g.det := by
  unfold GeoM.Rotate
  split
  · rfl
  · simp only [GeoM.det]
    linear_combination (g.a * g.d - g.b * g.c) * hsc theta

/-- Applying an invertible map after its inverse gives the point back. -/
theorem GeoM.Apply_Invert (g : GeoM K) (h : g.det ≠ 0) (x y : K) :
    g.Apply (g.Invert.Apply x y).1 (g.Invert.Apply x y).2 = (x, y) := by
  have h2 : g.a * g.d - g.b * g.c ≠ 0 := h
  simp only [GeoM.Apply, GeoM.Invert, GeoM.det]
  refine Prod.ext ?_ ?_ <;> simp only <;> field_simp <;> ring

theorem powInt_ne_zero (x : K) (hx : x ≠ 0) (n : Int) : powInt x n ≠ 0 :=
  zpow_ne_zero n hx

/-- The matrix of a viewport has a non-zero determinant, whatever the zoom level, as soon as
the values of `Sincos` lie on the unit circle. -/
theorem Viewport.GetMatrix_det_ne_zero (mf : MathFns K)
    (hsc : ∀ t, (mf.Sincos t).1 ^ 2 + (mf.Sincos t).2 ^ 2 = 1) (v : Viewport K) :
    (v.GetMatrix mf).det ≠ 0 := by
  have h101 : powInt (101 / 100 : K) v.ZoomFactor ≠ 0 :=
    powInt_ne_zero _ (by norm_num) _
  have h1 : powInt (1 : K) v.ZoomFactor ≠ 0 := powInt_ne_zero _ one_ne_zero _
  simp only [Viewport.GetMatrix]
  rw [GeoM.det_Translate, GeoM.det_Rotate _ hsc]
  split
  · rw [GeoM.det_Scale, GeoM.det_Translate, GeoM.det_identity, one_mul]
    exact mul_ne_zero h101 h101
  · rw [GeoM.det_Scale, GeoM.det_Translate, GeoM.det_identity, one_mul]
    exact mul_ne_zero h1 h1

theorem Viewport.ScreenToWorld_roundtrip (mf : MathFns K)
    (hsc : ∀ t, (mf.Sincos t).1 ^ 2 + (mf.Sincos t).2 ^ 2 = 1) (v : Viewport K)
    (sx sy : Int) :
    ∃ w : Vec2 K, v.ScreenToWorld mf sx sy = some w ∧
      (v.GetMatrix mf).Apply w.1 w.2 = ((sx : K), (sy : K)) := by
  have hd := v.GetMatrix_det_ne_zero mf hsc
  refine ⟨((v.GetMatrix mf).Invert.Apply (sx : K) (sy : K)), ?_, ?_⟩
  · simp [Viewport.ScreenToWorld, GeoM.IsInvertible, hd]
  · exact GeoM.Apply_Invert _ hd _ _

end FieldProofs

section RealProofs

/-- C10: over the reals, with the rotation by `Rotation * 2 * pi / 360` radians, for every
viewport (any position, rotation and zoom level, inside the zoom bounds or not) and every
integer screen point, `ScreenToWorld` returns a point and `GetMatrix()` applied to that point
is the screen point. -/
theorem C10_screen_to_world_roundtrip (v : Viewport ℝ) (sx sy : Int) :
    ∃ w : Vec2 ℝ,
      v.ScreenToWorld ⟨fun t => (Real.sin t, Real.cos t), Real.pi⟩ sx sy = some w ∧
      (v.GetMatrix ⟨fun t => (Real.sin t, Real.cos t), Real.pi⟩).Apply w.1 w.2 =
        ((sx : ℝ), (sy : ℝ)) :=
  Viewport.ScreenToWorld_roundtrip ⟨fun t => (Real.sin t, Real.cos t), Real.pi⟩
    (fun t => Real.sin_sq_add_cos_sq t) v sx sy

end RealProofs



section MatrixProofs

variable {K : Type} [LinearOrderedField K]

theorem powInt_one_zero : powInt (1 : K) 0 = powInt (101 / 100 : K) 0 := by
  simp [powInt]

/-- The determinant of the matrix of a viewport is the square of `1.01 ^ ZoomFactor`. -/
theorem Viewport.GetMatrix_det (mf : MathFns K)
    (hsc : ∀ t, (mf.Sincos t).1 ^ 2 + (mf.Sincos t).2 ^ 2 = 1) (v : Viewport K) :
    (v.GetMatrix mf).det = powInt (101 / 100) v.ZoomFactor ^ 2 := by
  simp only [Viewport.GetMatrix]
  rw [GeoM.det_Translate, GeoM.det_Rotate _ hsc]
  split
  · rw [GeoM.det_Scale, GeoM.det_Translate, GeoM.det_identity]; ring
  · next h =>
    have hz : v.ZoomFactor = 0 := not_not.mp h
    rw [GeoM.det_Scale, GeoM.det_Translate, GeoM.det_identity, hz, powInt_one_zero]; ring

/-- The matrix of a viewport scales by `1.01 ^ ZoomFactor` and rotates about the centre of
the viewport, as soon as `Sincos 0` is `(0, 1)`. -/
theorem Viewport.GetMatrix_Apply (mf : MathFns K) (h0 : mf.Sincos 0 = (0, 1))
    (v : Viewport K) (px py : K) :
    (v.GetMatrix mf).Apply px py =
      (v.GetCenter.1 + powInt (101 / 100) v.ZoomFactor *
          ((mf.Sincos ((v.Rotation : K) * 2 * mf.Pi / 360)).2 * (px - v.GetCenter.1) -
           (mf.Sincos ((v.Rotation : K) * 2 * mf.Pi / 360)).1 * (py - v.GetCenter.2)),
       v.GetCenter.2 + powInt (101 / 100) v.ZoomFactor *
          ((mf.Sincos ((v.Rotation : K) * 2 * mf.Pi / 360)).1 * (px - v.GetCenter.1) +
           (mf.Sincos ((v.Rotation : K) * 2 * mf.Pi / 360)).2 * (py - v.GetCenter.2))) := by
  simp only [Viewport.GetMatrix, GeoM.Rotate, apply_ite (fun m : GeoM K => GeoM.Scale m _ _)]
  by_cases ht : (v.Rotation : K) * 2 * mf.Pi / 360 = 0
  · rw [if_pos ht, ht, h0]
    by_cases hz : v.ZoomFactor ≠ 0
    · simp only [if_pos hz, GeoM.Apply, GeoM.Translate, GeoM.Scale, GeoM.identity]
      refine Prod.ext ?_ ?_ <;> simp only <;> ring
    · simp only [if_neg hz, GeoM.Apply, GeoM.Translate, GeoM.Scale, GeoM.identity]
      rw [not_not.mp hz, powInt_one_zero]
      refine Prod.ext ?_ ?_ <;> simp only <;> ring
  · rw [if_neg ht]
    by_cases hz : v.ZoomFactor ≠ 0
    · simp only [if_pos hz, GeoM.Apply, GeoM.Translate, GeoM.Scale, GeoM.identity]
      refine Prod.ext ?_ ?_ <;> simp only <;> ring
    · simp only [if_neg hz, GeoM.Apply, GeoM.Translate, GeoM.Scale, GeoM.identity]
      rw [not_not.mp hz, powInt_one_zero]
      refine Prod.ext ?_ ?_ <;> simp only <;> ring

end MatrixProofs

section RealMatrixProofs

/-- C11: over the reals, for every viewport whose zoom level is strictly inside the zoom
bounds, with any rotation and position, the determinant of the linear part of `GetMatrix()`
is `(1.01 ^ ZoomFactor) ^ 2`, which is not zero; the matrix is invertible and `ScreenToWorld`
returns a point, never the not-a-number sentinel. -/
theorem C11_matrix_invertible (k : Constants) (v : Viewport ℝ) (_hz : v.ZoomInRange k) :
    (v.GetMatrix ⟨fun t => (Real.sin t, Real.cos t), Real.pi⟩).det =
      ((101 / 100 : ℝ) ^ v.ZoomFactor) ^ 2 ∧
    ((101 / 100 : ℝ) ^ v.ZoomFactor) ^ 2 ≠ 0 ∧
    (v.GetMatrix ⟨fun t => (Real.sin t, Real.cos t), Real.pi⟩).IsInvertible = true ∧
    ∀ sx sy : Int,
      v.ScreenToWorld ⟨fun t => (Real.sin t, Real.cos t), Real.pi⟩ sx sy ≠ none := by
  have hd := Viewport.GetMatrix_det ⟨fun t => (Real.sin t, Real.cos t), Real.pi⟩
    (fun t => Real.sin_sq_add_cos_sq t) v
  have hne := Viewport.GetMatrix_det_ne_zero ⟨fun t => (Real.sin t, Real.cos t), Real.pi⟩
    (fun t => Real.sin_sq_add_cos_sq t) v
  refine ⟨hd, ?_, ?_, ?_⟩
  · have h := hne
    rw [hd] at h
    exact h
  · simp [GeoM.IsInvertible, hne]
  · intro sx sy
    simp [Viewport.ScreenToWorld, GeoM.IsInvertible, hne]

/-- C11 on the viewport of the example program, over the reals, with the bounds -100 and 100
and the zoom level 7. -/
theorem C11_matrix_invertible_witness :
    ((viewport.New 320 240 420 420 160 120 : Viewport ℝ).SetZoom ⟨-100, 100, 20⟩ 7).ZoomInRange
      ⟨-100, 100, 20⟩ ∧
    (((viewport.New 320 240 420 420 160 120 : Viewport ℝ).SetZoom ⟨-100, 100, 20⟩ 7).GetMatrix
      ⟨fun t => (Real.sin t, Real.cos t), Real.pi⟩).IsInvertible = true := by
  have hz : ((viewport.New 320 240 420 420 160 120 : Viewport ℝ).SetZoom
      ⟨-100, 100, 20⟩ 7).ZoomInRange ⟨-100, 100, 20⟩ := by
    simp [Viewport.ZoomInRange, Viewport.SetZoom, viewport.New]
  exact ⟨hz, (C11_matrix_invertible ⟨-100, 100, 20⟩ _ hz).2.2.1⟩

/-- C12: over the reals, for every viewport, zoom level and rotation, `GetMatrix()` maps the
centre `GetCenter()` of the viewport to itself and every point `p` to
`centre + 1.01 ^ ZoomFactor * R (p - centre)`, where `R` is the rotation by `Rotation`
degrees. -/
theorem C12_matrix_pivots_on_centre (v : Viewport ℝ) (px py : ℝ) :
    v.GetCenter = (v.Position.1 + v.ViewSize.1 / 2, v.Position.2 + v.ViewSize.2 / 2) ∧
    (v.GetMatrix ⟨fun t => (Real.sin t, Real.cos t), Real.pi⟩).Apply
      v.GetCenter.1 v.GetCenter.2 = v.GetCenter ∧
    (v.GetMatrix ⟨fun t => (Real.sin t, Real.cos t), Real.pi⟩).Apply px py =
      (v.GetCenter.1 + (101 / 100 : ℝ) ^ v.ZoomFactor *
          (Real.cos ((v.Rotation : ℝ) * 2 * Real.pi / 360) * (px - v.GetCenter.1) -
           Real.sin ((v.Rotation : ℝ) * 2 * Real.pi / 360) * (py - v.GetCenter.2)),
       v.GetCenter.2 + (101 / 100 : ℝ) ^ v.ZoomFactor *
          (Real.sin ((v.Rotation : ℝ) * 2 * Real.pi / 360) * (px - v.GetCenter.1) +
           Real.cos ((v.Rotation : ℝ) * 2 * Real.pi / 360) * (py - v.GetCenter.2))) := by
  have h0 : (⟨fun t => (Real.sin t, Real.cos t), Real.pi⟩ : MathFns ℝ).Sincos 0 = (0, 1) := by
    simp
  refine ⟨rfl, ?_, ?_⟩
  · rw [Viewport.GetMatrix_Apply _ h0]
    simp
  · rw [Viewport.GetMatrix_Apply _ h0]
    rfl

end RealMatrixProofs

section ShakerProofs

variable {K : Type} [LinearOrderedField K]

theorem Shaker.GetOffsets_of_one_le (s : Shaker K) (rng : Rand K)
    (h : 1 ≤ s.ShakeIntensity) : s.GetOffsets rng = ((0, 0), rng) := by
  simp [Shaker.GetOffsets, not_lt.mpr h]

theorem Shaker.iterate_Update_intensity (s : Shaker K) (n : Nat) :
    (Shaker.Update^[n] s).ShakeIntensity = s.ShakeIntensity + (n : K) / 60 := by
  induction n with
  | zero => simp
  | succ n ih =>
    rw [Function.iterate_succ_apply', Shaker.Update, ih]
    push_cast
    ring

theorem Shaker.applyCall_intensity (s : Shaker K) (c : ShakerCall K)
    (hc : c.isShake = false) (h : 1 ≤ s.ShakeIntensity) :
    1 ≤ (s.applyCall c).ShakeIntensity := by
  cases c with
  | Shake => simp [ShakerCall.isShake] at hc
  | SetShakeIntensity m => exact h
  | Update =>
    simp only [Shaker.applyCall, Shaker.Update]
    linarith [show (0 : K) ≤ 1 / 60 by norm_num]

theorem Shaker.applyCalls_intensity (s : Shaker K) (cs : List (ShakerCall K))
    (hcs : ∀ c ∈ cs, c.isShake = false) (h : 1 ≤ s.ShakeIntensity) :
    1 ≤ (s.applyCalls cs).ShakeIntensity := by
  induction cs generalizing s with
  | nil => exact h
  | cons c cs ih =>
    simp only [Shaker.applyCalls, List.foldl_cons]
    exact ih (s.applyCall c) (fun d hd => hcs d (List.mem_cons_of_mem _ hd))
      (s.applyCall_intensity c (hcs c (List.mem_cons_self _ _)) h)

/-- C13: a shaker with `ShakeIntensity >= 1` returns the offsets (0, 0), whatever the
maximum, the duration and the random source are, and draws no random value.  In particular
so does a shaker from `New()` after any calls other than `Shake()`, and a shaker after
`Shake()` followed by at least 60 calls of `Update()`. -/
theorem C13_no_shake_after_decay (s : Shaker K) (rng : Rand K) (h : 1 ≤ s.ShakeIntensity) :
    (s.GetOffsets rng).1 = (0, 0) ∧ (s.GetOffsets rng).2 = rng ∧
    (∀ cs : List (ShakerCall K), (∀ c ∈ cs, c.isShake = false) →
      (((shaker.New : Shaker K).applyCalls cs).GetOffsets rng).1 = (0, 0)) ∧
    (∀ (t : Shaker K) (n : Nat), 60 ≤ n →
      ((Shaker.Update^[n] t.Shake).GetOffsets rng).1 = (0, 0)) := by
  refine ⟨?_, ?_, ?_, ?_⟩
  · rw [s.GetOffsets_of_one_le rng h]
  · rw [s.GetOffsets_of_one_le rng h]
  · intro cs hcs
    have h1 : (1 : K) ≤ (shaker.New : Shaker K).ShakeIntensity := le_refl _
    rw [Shaker.GetOffsets_of_one_le _ rng (Shaker.applyCalls_intensity _ cs hcs h1)]
  · intro t n hn
    have h60 : (60 : K) ≤ (n : K) := by exact_mod_cast hn
    have h1 : 1 ≤ (Shaker.Update^[n] t.Shake).ShakeIntensity := by
      rw [Shaker.iterate_Update_intensity]
      simp only [Shaker.Shake]
      rw [zero_add, le_div_iff₀ (by norm_num)]
      linarith
    rw [Shaker.GetOffsets_of_one_le _ rng h1]

/-- C13 on the shaker of the example program after `Shake()` and 60 calls of `Update()`. -/
theorem C13_no_shake_after_decay_witness :
    (1 : ℚ) ≤ (Shaker.Update^[60] (shaker.New : Shaker ℚ).Shake).ShakeIntensity ∧
    ((Shaker.Update^[60] (shaker.New : Shaker ℚ).Shake).GetOffsets exampleRand).1 = (0, 0) ∧
    ((Shaker.Update^[59] (shaker.New : Shaker ℚ).Shake).ShakeIntensity < 1) := by
  have h1 : (1 : ℚ) ≤ (Shaker.Update^[60] (shaker.New : Shaker ℚ).Shake).ShakeIntensity := by
    rw [Shaker.iterate_Update_intensity]; norm_num [Shaker.Shake]
  refine ⟨h1, (C13_no_shake_after_decay _ exampleRand h1).1, ?_⟩
  rw [Shaker.iterate_Update_intensity]; norm_num [Shaker.Shake]

/-- C14: for a shaker with `0 <= ShakeIntensity < 1`, a non-negative maximum and duration and
random draws in [0, 1), both offsets of `GetOffsets()` are at most
`A = MaxShakeIntensity * ShakeDuration * (1 - ShakeIntensity)` in absolute value; they are
`A * (2 r - 1)` for the next two draws `r`.  After `SetShakeIntensity(m)` the maximum is `m`
and the duration is `m / 10`. -/
theorem C14_offsets_within_amplitude (s : Shaker K) (rng : Rand K)
    (_hi0 : 0 ≤ s.ShakeIntensity) (hi1 : s.ShakeIntensity < 1)
    (hm : 0 ≤ s.MaxShakeIntensity) (hd : 0 ≤ s.ShakeDuration)
    (hr : ∀ n, 0 ≤ rng.draws n ∧ rng.draws n < 1) :
    |(s.GetOffsets rng).1.1| ≤ s.MaxShakeIntensity * s.ShakeDuration * (1 - s.ShakeIntensity) ∧
    |(s.GetOffsets rng).1.2| ≤ s.MaxShakeIntensity * s.ShakeDuration * (1 - s.ShakeIntensity) ∧
    (s.GetOffsets rng).1.1 =
      s.MaxShakeIntensity * s.ShakeDuration * (1 - s.ShakeIntensity) *
        (2 * rng.draws rng.calls - 1) ∧
    (s.GetOffsets rng).1.2 =
      s.MaxShakeIntensity * s.ShakeDuration * (1 - s.ShakeIntensity) *
        (2 * rng.draws (rng.calls + 1) - 1) ∧
    (s.GetOffsets rng).2.calls = rng.calls + 2 ∧
    (∀ m : K, (s.SetShakeIntensity m).ShakeDuration = m / 10 ∧
      (s.SetShakeIntensity m).MaxShakeIntensity = m) := by
  have hA : 0 ≤ s.MaxShakeIntensity * s.ShakeDuration * (1 - s.ShakeIntensity) :=
    mul_nonneg (mul_nonneg hm hd) (by linarith)
  have hx : (s.GetOffsets rng).1.1 =
      s.MaxShakeIntensity * s.ShakeDuration * (1 - s.ShakeIntensity) *
        (2 * rng.draws rng.calls - 1) := by
    simp only [Shaker.GetOffsets, if_pos hi1, gfx.Lerp, Rand.Float64]; ring
  have hy : (s.GetOffsets rng).1.2 =
      s.MaxShakeIntensity * s.ShakeDuration * (1 - s.ShakeIntensity) *
        (2 * rng.draws (rng.calls + 1) - 1) := by
    simp only [Shaker.GetOffsets, if_pos hi1, gfx.Lerp, Rand.Float64]; ring
  have hb : ∀ r : K, 0 ≤ r → r < 1 →
      |s.MaxShakeIntensity * s.ShakeDuration * (1 - s.ShakeIntensity) * (2 * r - 1)| ≤
        s.MaxShakeIntensity * s.ShakeDuration * (1 - s.ShakeIntensity) := by
    intro r h0 h1
    rw [abs_mul, abs_of_nonneg hA]
    have : |2 * r - 1| ≤ 1 := abs_le.mpr ⟨by linarith, by linarith⟩
    calc s.MaxShakeIntensity * s.ShakeDuration * (1 - s.ShakeIntensity) * |2 * r - 1|
        ≤ s.MaxShakeIntensity * s.ShakeDuration * (1 - s.ShakeIntensity) * 1 :=
          mul_le_mul_of_nonneg_left this hA
      _ = s.MaxShakeIntensity * s.ShakeDuration * (1 - s.ShakeIntensity) := mul_one _
  refine ⟨?_, ?_, hx, hy, ?_, fun m => ⟨rfl, rfl⟩⟩
  · rw [hx]; exact hb _ (hr _).1 (hr _).2
  · rw [hy]; exact hb _ (hr _).1 (hr _).2
  · simp only [Shaker.GetOffsets, if_pos hi1, Rand.Float64]

/-- C14 on the shaker of the example program a quarter of the way through a shake: the
amplitude is 135/32 and the draws 0 and 3/4 give the offsets -135/32 and 135/64. -/
theorem C14_offsets_within_amplitude_witness :
    quarterShaker.ShakeIntensity = 1 / 4 ∧ quarterShaker.MaxShakeIntensity = 15 / 2 ∧
    quarterShaker.ShakeDuration = 3 / 4 ∧
    (∀ n, 0 ≤ exampleRand.draws n ∧ exampleRand.draws n < 1) ∧
    (quarterShaker.GetOffsets exampleRand).1 = (-135 / 32, 135 / 64) ∧
    |(quarterShaker.GetOffsets exampleRand).1.1| ≤
      quarterShaker.MaxShakeIntensity * quarterShaker.ShakeDuration *
        (1 - quarterShaker.ShakeIntensity) := by
  have hi : quarterShaker.ShakeIntensity = 1 / 4 := by
    unfold quarterShaker
    rw [Shaker.iterate_Update_intensity]; norm_num [Shaker.Shake]
  have hm : quarterShaker.MaxShakeIntensity = 15 / 2 := by
    simp [quarterShaker, Function.iterate_succ, Shaker.Update, Shaker.Shake,
      Shaker.SetShakeIntensity]
  have hd : quarterShaker.ShakeDuration = 3 / 4 := by
    simp [quarterShaker, Function.iterate_succ, Shaker.Update, Shaker.Shake,
      Shaker.SetShakeIntensity]
    norm_num
  have hr : ∀ n, 0 ≤ exampleRand.draws n ∧ exampleRand.draws n < 1 := by
    intro n
    simp only [exampleRand]
    split <;> norm_num
  refine ⟨hi, hm, hd, hr, ?_,
    (C14_offsets_within_amplitude quarterShaker exampleRand (by rw [hi]; norm_num)
      (by rw [hi]; norm_num) (by rw [hm]; norm_num) (by rw [hd]; norm_num) hr).1⟩
  have hlt : quarterShaker.ShakeIntensity < 1 := by rw [hi]; norm_num
  simp only [Shaker.GetOffsets, if_pos hlt, gfx.Lerp, Rand.Float64, hi, hm, hd, exampleRand]
  norm_num

end ShakerProofs

section ResetProofs

variable {K : Type} [LinearOrderedField K]

theorem Viewport.applyCall_InitialPosition (k : Constants) (v : Viewport K) (c : ViewCall K) :
    (v.applyCall k c).InitialPosition = v.InitialPosition := by
  cases c <;>
    simp only [Viewport.applyCall, Viewport.MoveBy, Viewport.MoveTo, Viewport.ZoomBy,
      Viewport.SetZoom, Viewport.SetRotation, Viewport.RoatateBy, Viewport.SetMargin] <;>
    first
      | rfl
      | (split <;> rfl)

theorem Viewport.applyCalls_InitialPosition (k : Constants) (v : Viewport K)
    (cs : List (ViewCall K)) : (v.applyCalls k cs).InitialPosition = v.InitialPosition := by
  induction cs generalizing v with
  | nil => rfl
  | cons c cs ih =>
    simp only [Viewport.applyCalls, List.foldl_cons]
    exact (ih (v.applyCall k c)).trans (v.applyCall_InitialPosition k c)

/-- C15: for a viewport built by `New` and then changed by any sequence of `MoveBy`, `MoveTo`,
`ZoomBy`, `SetZoom`, `SetRotation`, `RoatateBy` and `SetMargin` calls, `Reset()` sets the
position to the initial position, which is the centre given to `New` minus half the view
size, sets zoom and rotation to 0 and leaves the world size, the view size, the initial
position, the margin, the out-of-bounds flag and the camera as they were. -/
theorem C15_reset_restores (k : Constants)
    (screenWidth screenHeight worldWidth worldHeight : Int) (centreX centreY : K)
    (cs : List (ViewCall K)) :
    (((viewport.New screenWidth screenHeight worldWidth worldHeight centreX centreY).applyCalls
        k cs).Reset).Position =
      (centreX - (screenWidth : K) / 2, centreY - (screenHeight : K) / 2) ∧
    (((viewport.New screenWidth screenHeight worldWidth worldHeight centreX centreY).applyCalls
        k cs).Reset).Position =
      (((viewport.New screenWidth screenHeight worldWidth worldHeight centreX centreY).applyCalls
        k cs).Reset).InitialPosition ∧
    (((viewport.New screenWidth screenHeight worldWidth worldHeight centreX centreY).applyCalls
        k cs).Reset).ZoomFactor = 0 ∧
    (((viewport.New screenWidth screenHeight worldWidth worldHeight centreX centreY).applyCalls
        k cs).Reset).Rotation = 0 ∧
    ∀ v : Viewport K,
      v.Reset.WorldSize = v.WorldSize ∧ v.Reset.ViewSize = v.ViewSize ∧
      v.Reset.InitialPosition = v.InitialPosition ∧ v.Reset.Margin = v.Margin ∧
      v.Reset.AllowOutOfBounds = v.AllowOutOfBounds ∧ v.Reset.Camera = v.Camera ∧
      v.Reset.WorldCenter = v.WorldCenter := by
  have hi := Viewport.applyCalls_InitialPosition k
    (viewport.New screenWidth screenHeight worldWidth worldHeight centreX centreY) cs
  refine ⟨?_, ?_, rfl, rfl, fun v => ⟨rfl, rfl, rfl, rfl, rfl, rfl, rfl⟩⟩
  · simp only [Viewport.Reset, hi]
    rfl
  · simp only [Viewport.Reset]

theorem Viewport.InBounds_congr (v w : Viewport K) (h1 : w.Position = v.Position)
    (h2 : w.ViewSize = v.ViewSize) (h3 : w.WorldSize = v.WorldSize) (h4 : w.Margin = v.Margin)
    (h : v.InBounds) : w.InBounds := by
  unfold Viewport.InBounds at h ⊢
  rw [h1, h2, h3, h4]
  exact h

/-- C16 as stated fails for `New`, `SetMargin` and `Reset`, which assign without clamping.
With `AllowOutOfBounds` false and a view that fits: `New(320, 240, 420, 420, 0, 0)` has the
position (-160, -120); `SetMargin(10)` on the example viewport leaves the position (0, 0)
inside the margin; and `Reset()` after a move that clamped the origin viewport to (0, 0)
puts it back at (-160, -120). -/
theorem C16_counterexample :
    (originViewport.AllowOutOfBounds = false ∧ originViewport.Fits ∧
      originViewport.Position = (-160, -120) ∧ ¬ originViewport.InBounds) ∧
    (exampleViewport.InBounds ∧ (exampleViewport.SetMargin 10).AllowOutOfBounds = false ∧
      (exampleViewport.SetMargin 10).Fits ∧ ¬ (exampleViewport.SetMargin 10).InBounds) ∧
    ((originViewport.MoveBy 0 0).InBounds ∧ (originViewport.MoveBy 0 0).Fits ∧
      (originViewport.MoveBy 0 0).AllowOutOfBounds = false ∧
      ¬ (originViewport.MoveBy 0 0).Reset.InBounds) := by
  refine ⟨⟨rfl, ?_, ?_, ?_⟩, ⟨?_, rfl, ?_, ?_⟩, ⟨?_, ?_, ?_, ?_⟩⟩ <;>
    norm_num [originViewport, exampleViewport, viewport.New, Viewport.Fits, Viewport.InBounds,
      Viewport.SetMargin, Viewport.MoveBy, Viewport.OutOfBounds, Viewport.Reset]

/-- C16, amended: with `AllowOutOfBounds` false and a view that fits in the world together
with its margins, the bounds predicate holds after every `MoveBy` and `MoveTo` call, whatever
the position was before, and it is preserved by `ZoomBy`, `SetZoom`, `SetRotation` and
`RoatateBy`, which leave the position alone. -/
theorem C16_bounds_after_moves (k : Constants) (v : Viewport K)
    (hb : v.AllowOutOfBounds = false) (hf : v.Fits) :
    (∀ dx dy : K, (v.MoveBy dx dy).InBounds) ∧
    (∀ x y : K, (v.MoveTo x y).InBounds) ∧
    (v.InBounds →
      (∀ dz : Int, (v.ZoomBy k dz).InBounds) ∧ (∀ z : Int, (v.SetZoom k z).InBounds) ∧
      (∀ r : Int, (v.SetRotation r).InBounds) ∧ (∀ dr : Int, (v.RoatateBy dr).InBounds)) := by
  refine ⟨fun dx dy => v.applyMove_inBounds (Move.By dx dy) hb hf,
    fun x y => v.applyMove_inBounds (Move.To x y) hb hf, fun h => ⟨?_, ?_, ?_, ?_⟩⟩
  · intro dz
    unfold Viewport.ZoomBy
    split
    · exact Viewport.InBounds_congr v _ rfl rfl rfl rfl h
    · exact h
  · intro z
    unfold Viewport.SetZoom
    split
    · exact Viewport.InBounds_congr v _ rfl rfl rfl rfl h
    · exact h
  · intro r
    exact Viewport.InBounds_congr v _ rfl rfl rfl rfl h
  · intro dr
    exact Viewport.InBounds_congr v _ rfl rfl rfl rfl h

/-- C16, amended, on the origin viewport, which starts out of bounds: a move by (0, 0) puts
it at (0, 0), inside the bounds. -/
theorem C16_bounds_after_moves_witness :
    originViewport.AllowOutOfBounds = false ∧ originViewport.Fits ∧
    ¬ originViewport.InBounds ∧ (originViewport.MoveBy 0 0).Position = (0, 0) ∧
    (originViewport.MoveBy 0 0).InBounds := by
  have hf : originViewport.Fits := by
    norm_num [originViewport, viewport.New, Viewport.Fits]
  refine ⟨rfl, hf, ?_, ?_, (C16_bounds_after_moves ⟨-100, 100, 20⟩ originViewport rfl hf).1 0 0⟩
  · norm_num [originViewport, viewport.New, Viewport.InBounds]
  · norm_num [originViewport, viewport.New, Viewport.MoveBy, Viewport.OutOfBounds]

end ResetProofs

section ApplyProofs

variable {K : Type} [LinearOrderedField K]

theorem GeoM.Apply_Concat (g other : GeoM K) (x y : K) :
    (g.Concat other).Apply x y = other.Apply (g.Apply x y).1 (g.Apply x y).2 := by
  simp only [GeoM.Apply, GeoM.Concat]
  refine Prod.ext ?_ ?_ <;> simp only <;> ring

theorem GeoM.Apply_Scale (g : GeoM K) (sx sy x y : K) :
    (g.Scale sx sy).Apply x y = (sx * (g.Apply x y).1, sy * (g.Apply x y).2) := by
  simp only [GeoM.Apply, GeoM.Scale]
  refine Prod.ext ?_ ?_ <;> simp only <;> ring

theorem GeoM.Apply_identity_Translate (tx ty x y : K) :
    ((GeoM.identity : GeoM K).Translate tx ty).Apply x y = (x + tx, y + ty) := by
  simp only [GeoM.Apply, GeoM.Translate, GeoM.identity]
  refine Prod.ext ?_ ?_ <;> simp only <;> ring

end ApplyProofs

section ScreenProofs

variable {K : Type} [LinearOrderedField K] [FloorRing K]

theorem truncInt_intCast (n : Int) : truncInt (n : K) = n := by
  unfold truncInt
  split <;> simp

theorem renderGeoM_of_viewport (mf : MathFns K) (k : Constants)
    (s : CustomScreen K) (vp : Viewport K) (hv : s.Viewport = some vp) (sdx sdy : K)
    (resX resY : Int) :
    ∃ g : GeoM K, s.renderGeoM mf k sdx sdy resX resY = some g ∧
      ∀ px py : K, g.Apply px py =
        if s.AutoScaling = true ∧
            (resX ≠ truncInt s.ScreenSize.1 ∨ resY ≠ truncInt s.ScreenSize.2) then
          ((resX : K) / s.ScreenSize.1 * ((vp.GetMatrix mf).Apply (px - sdx) (py - sdy)).1,
           (resY : K) / s.ScreenSize.2 * ((vp.GetMatrix mf).Apply (px - sdx) (py - sdy)).2)
        else (vp.GetMatrix mf).Apply (px - sdx) (py - sdy) := by
  simp only [CustomScreen.renderGeoM, hv, Option.isNone_some, Bool.and_false, GeoM.Reset]
  by_cases ha : s.AutoScaling = true
  · by_cases hr : resX ≠ truncInt s.ScreenSize.1 ∨ resY ≠ truncInt s.ScreenSize.2
    · refine ⟨_, by simp only [ha, hr]; rfl, fun px py => ?_⟩
      rw [if_pos ⟨ha, hr⟩, GeoM.Apply_Scale, GeoM.Apply_Concat, GeoM.Apply_identity_Translate]
      simp only [sub_eq_add_neg]
    · refine ⟨_, by simp only [ha, hr]; rfl, fun px py => ?_⟩
      rw [if_neg (fun h => hr h.2), GeoM.Apply_Concat, GeoM.Apply_identity_Translate]
      simp only [sub_eq_add_neg]
  · refine ⟨_, by simp only [ha]; rfl, fun px py => ?_⟩
    rw [if_neg (fun h => ha h.1), GeoM.Apply_Concat, GeoM.Apply_identity_Translate]
    simp only [sub_eq_add_neg]

theorem Render_of_no_viewport (mf : MathFns K) (k : Constants) (s : CustomScreen K)
    (h : s.Viewport = none) (resX resY : Int) (rng : Rand K) :
    s.Render mf k resX resY rng = none := by
  simp only [CustomScreen.Render]
  cases s.renderGeoM mf k (s.Shaker.GetOffsets rng).1.1 (s.Shaker.GetOffsets rng).1.2
      resX resY with
  | none => rfl
  | some g => simp [CustomScreen.drawCameraFocusArea, h]

/-- C17, the failing run: for the screen that `screen.New` returns in auto-padding mode
(screen size equal to world size, nil viewport), `Render` builds the transform that translates
by minus the shake offset and then by `(-AUTO_PADDING, -AUTO_PADDING)`, and then panics in
`drawCameraFocusArea`, which reads `s.Viewport.Position` through the nil viewport. -/
theorem C17_render_panics_without_viewport (mf : MathFns K) (k : Constants)
    (screenWidth screenHeight resX resY : Int) (rng : Rand K) :
    ∃ s : CustomScreen K,
      screen.New k screenWidth screenHeight screenWidth screenHeight none = .ok s ∧
      s.AutoPadding = true ∧ s.Viewport = none ∧
      (∀ sdx sdy : K, s.renderGeoM mf k sdx sdy screenWidth screenHeight =
        some (((GeoM.identity : GeoM K).Translate (-sdx) (-sdy)).Translate
          (-(k.AUTO_PADDING : K)) (-(k.AUTO_PADDING : K)))) ∧
      s.drawCameraFocusArea k = none ∧
      s.Render mf k resX resY rng = none := by
  refine ⟨{ Image := (wrapInt (screenWidth + k.AUTO_PADDING * 2),
                      wrapInt (screenHeight + k.AUTO_PADDING * 2))
            ScreenSize := ((screenWidth : K), (screenHeight : K))
            WorldSize := (((wrapInt (screenWidth + k.AUTO_PADDING * 2) : Int) : K),
                          ((wrapInt (screenHeight + k.AUTO_PADDING * 2) : Int) : K))
            Viewport := none
            Shaker := shaker.New
            DrawOP := GeoM.identity
            Debug := false
            AutoScaling := true
            StaticViewport := true
            AutoPadding := true }, ?_, ?_, ?_, ?_, ?_, ?_⟩
  · simp [screen.New]
  · rfl
  · rfl
  · intro sdx sdy
    simp [CustomScreen.renderGeoM, truncInt_intCast, GeoM.Reset]
  · rfl
  · exact Render_of_no_viewport mf k _ rfl resX resY rng

/-- C17 at the screen `screen.New(320, 240, 320, 240, nil)` with padding 20: `Render` on a
320x240 target panics. -/
theorem C17_render_panics_example :
    screen.New exampleConstants 320 240 320 240 none = .ok paddedScreen ∧
    paddedScreen.Render rationalMath exampleConstants 320 240 exampleRand = none := by
  constructor
  · simp [screen.New, paddedScreen, exampleConstants, wrapInt]
  · exact Render_of_no_viewport rationalMath exampleConstants paddedScreen rfl 320 240
      exampleRand

/-- C18: for a screen with a viewport, whose screen size is a pair of integers as `New` sets
it, `Render` on a target of size `resX` by `resY` completes, draws random values as one call
of the shaker's `GetOffsets` does, and leaves in `DrawOP` the transform that maps a point `p`
to `S (M (p - shake))`: `M` is the viewport's `GetMatrix()` and `S` scales by
`(resX / ScreenSize.x, resY / ScreenSize.y)` when `AutoScaling` is on and the target size
differs from the screen size, and is the identity otherwise. -/
theorem C18_render_transform (mf : MathFns K) (k : Constants) (s : CustomScreen K)
    (vp : Viewport K) (screenWidth screenHeight resX resY : Int) (rng : Rand K)
    (hv : s.Viewport = some vp)
    (hs : s.ScreenSize = ((screenWidth : K), (screenHeight : K))) :
    ∃ s1 : CustomScreen K,
      s.Render mf k resX resY rng = some (s1, (s.Shaker.GetOffsets rng).2) ∧
      ∀ px py : K,
        s1.DrawOP.Apply px py =
          if s.AutoScaling = true ∧ (resX ≠ screenWidth ∨ resY ≠ screenHeight) then
            ((resX : K) / s.ScreenSize.1 *
                ((vp.GetMatrix mf).Apply (px - (s.Shaker.GetOffsets rng).1.1)
                  (py - (s.Shaker.GetOffsets rng).1.2)).1,
             (resY : K) / s.ScreenSize.2 *
                ((vp.GetMatrix mf).Apply (px - (s.Shaker.GetOffsets rng).1.1)
                  (py - (s.Shaker.GetOffsets rng).1.2)).2)
          else
            (vp.GetMatrix mf).Apply (px - (s.Shaker.GetOffsets rng).1.1)
              (py - (s.Shaker.GetOffsets rng).1.2) := by
  have ht1 : truncInt s.ScreenSize.1 = screenWidth := by rw [hs]; exact truncInt_intCast _
  have ht2 : truncInt s.ScreenSize.2 = screenHeight := by rw [hs]; exact truncInt_intCast _
  obtain ⟨g, hg, hga⟩ := renderGeoM_of_viewport mf k s vp hv (s.Shaker.GetOffsets rng).1.1
    (s.Shaker.GetOffsets rng).1.2 resX resY
  rw [ht1, ht2] at hga
  refine ⟨{ s with DrawOP := g }, ?_, hga⟩
  simp only [CustomScreen.Render, hg, CustomScreen.drawCameraFocusArea, hv]

/-- C18 on the screen of the example program, rendered on a 640x480 target while the shaker
is at rest: the point (10, 20) of the surface lands on (20, 40). -/
theorem C18_render_transform_witness :
    screen.New exampleConstants 320 240 420 420 (some exampleViewport) = .ok exampleScreen ∧
    exampleScreen.Viewport = some exampleViewport ∧
    exampleScreen.ScreenSize = (((320 : Int) : ℚ), ((240 : Int) : ℚ)) ∧
    ∃ s1 : CustomScreen ℚ,
      exampleScreen.Render rationalMath exampleConstants 640 480 exampleRand =
        some (s1, exampleRand) ∧
      s1.DrawOP.Apply 10 20 = (20, 40) := by
  have hs : exampleScreen.ScreenSize = (((320 : Int) : ℚ), ((240 : Int) : ℚ)) := by
    norm_num [exampleScreen]
  obtain ⟨s1, h1, h2⟩ := C18_render_transform rationalMath exampleConstants exampleScreen
    exampleViewport 320 240 640 480 exampleRand rfl hs
  have hsh : exampleScreen.Shaker.GetOffsets exampleRand = ((0, 0), exampleRand) := by
    norm_num [exampleScreen, shaker.New, Shaker.GetOffsets]
  refine ⟨?_, rfl, hs, s1, ?_, ?_⟩
  · simp [screen.New, exampleScreen, exampleConstants]
  · rw [h1, hsh]
  · rw [h2 10 20, hsh]
    norm_num [exampleScreen, exampleViewport, viewport.New, Viewport.GetMatrix,
      Viewport.GetCenter, GeoM.Rotate, GeoM.Scale, GeoM.Translate, GeoM.identity, GeoM.Apply,
      powInt, rationalMath]

end ScreenProofs

section OffsetProofs

variable {K : Type} [LinearOrderedField K]

/-- C19: in exact arithmetic `Viewport.GetOffsets()` returns `(-Position.x, -Position.y)`,
whatever the view size and the world size are, and `GetOffsetMatrix()` is the translation by
that vector. -/
theorem C19_offsets_are_minus_position (v : Viewport K) :
    v.GetOffsets = (-v.Position.1, -v.Position.2) ∧
    v.GetOffsetMatrix = ⟨1, 0, 0, 1, -v.Position.1, -v.Position.2⟩ ∧
    ∀ px py : K, v.GetOffsetMatrix.Apply px py = (px + -v.Position.1, py + -v.Position.2) := by
  have h : v.GetOffsets = (-v.Position.1, -v.Position.2) := by
    simp only [Viewport.GetOffsets]
    refine Prod.ext ?_ ?_ <;> simp only <;> ring
  have hm : v.GetOffsetMatrix = ⟨1, 0, 0, 1, -v.Position.1, -v.Position.2⟩ := by
    simp only [Viewport.GetOffsetMatrix, h, GeoM.Translate, GeoM.identity, zero_add]
  refine ⟨h, hm, fun px py => ?_⟩
  rw [hm]
  simp only [GeoM.Apply]
  refine Prod.ext ?_ ?_ <;> simp only <;> ring

/-- C20, the failing run: the example viewport moved to (50, 90) has its centre (210, 210)
at the centre of the 420x420 world, and `GetOffsets()` returns (-50, -90), not (0, 0). -/
theorem C20_offsets_at_world_centre :
    centredViewport.Position = (50, 90) ∧
    centredViewport.GetCenter = (centredViewport.WorldSize.1 / 2,
      centredViewport.WorldSize.2 / 2) ∧
    centredViewport.GetCenter = centredViewport.WorldCenter ∧
    centredViewport.GetOffsets = (-50, -90) ∧
    centredViewport.GetOffsets ≠ (0, 0) := by
  have hp : centredViewport.Position = (50, 90) := by
    norm_num [centredViewport, exampleViewport, viewport.New, Viewport.MoveTo,
      Viewport.OutOfBounds]
  have ho : centredViewport.GetOffsets = (-50, -90) := by
    simp only [Viewport.GetOffsets, hp]
    norm_num [centredViewport, exampleViewport, viewport.New, Viewport.MoveTo,
      Viewport.OutOfBounds]
  refine ⟨hp, ?_, ?_, ho, ?_⟩
  · simp only [Viewport.GetCenter, hp]
    norm_num [centredViewport, exampleViewport, viewport.New, Viewport.MoveTo,
      Viewport.OutOfBounds]
  · simp only [Viewport.GetCenter, hp]
    norm_num [centredViewport, exampleViewport, viewport.New, Viewport.MoveTo,
      Viewport.OutOfBounds]
  · rw [ho]
    norm_num

end OffsetProofs

section DrawProofs

variable {K : Type} [LinearOrderedField K]

theorem screen_New_mode (k : Constants) (screenWidth screenHeight worldWidth worldHeight : Int)
    (viewport : Option (Viewport K)) (s : CustomScreen K)
    (h : screen.New k screenWidth screenHeight worldWidth worldHeight viewport = .ok s) :
    (∃ vp, s.Viewport = some vp ∧ s.AutoPadding = false) ∨
    (s.Viewport = none ∧ s.AutoPadding = true) := by
  unfold screen.New at h
  cases viewport with
  | none =>
    right
    by_cases hs : screenWidth = worldWidth ∧ screenHeight = worldHeight
    · simp only [hs, and_self, if_true, Option.isSome_none, Bool.false_eq_true, if_false,
        Except.ok.injEq] at h
      rw [← h]
      exact ⟨rfl, rfl⟩
    · simp [hs] at h
  | some vp =>
    left
    by_cases hs : screenWidth = worldWidth ∧ screenHeight = worldHeight
    · simp [hs] at h
    · simp only [hs, if_false, Option.isNone_some, Bool.false_eq_true, Except.ok.injEq] at h
      rw [← h]
      exact ⟨vp, rfl, rfl⟩

theorem CustomScreen.GetOffsetMatrix_eq (k : Constants) (s : CustomScreen K) :
    s.GetOffsetMatrix k =
      (GeoM.identity : GeoM K).Translate (s.GetOffsets k).1 (s.GetOffsets k).2 := by
  unfold CustomScreen.GetOffsetMatrix CustomScreen.GetOffsets
  cases hv : s.Viewport with
  | none =>
    cases s.AutoPadding <;> simp [GeoM.Translate, GeoM.identity]
  | some vp =>
    simp [Viewport.GetOffsetMatrix]

/-- C21: for every screen, `CustomScreen.GetOffsetMatrix()` is the translation by the vector
that `CustomScreen.GetOffsets()` returns, so `DrawImage`, which appends the matrix, and
`DrawLine` and `DrawRect`, which add the vector, shift by the same amount.  That amount is
the offset of the viewport when there is a viewport and `(AUTO_PADDING, AUTO_PADDING)` in
auto-padding mode, and a screen returned by `screen.New` is in one of these two modes. -/
theorem C21_offset_matrix_matches_offsets (k : Constants) (s : CustomScreen K) :
    s.GetOffsetMatrix k =
      (GeoM.identity : GeoM K).Translate (s.GetOffsets k).1 (s.GetOffsets k).2 ∧
    (∀ px py : K, (s.GetOffsetMatrix k).Apply px py =
      (px + (s.GetOffsets k).1, py + (s.GetOffsets k).2)) ∧
    (∀ (op : GeoM K) (px py : K), (s.DrawImage k op).Apply px py =
      ((op.Apply px py).1 + (s.GetOffsets k).1, (op.Apply px py).2 + (s.GetOffsets k).2)) ∧
    (∀ x1 y1 x2 y2 : K, s.DrawLine k x1 y1 x2 y2 =
      ((x1 + (s.GetOffsets k).1, y1 + (s.GetOffsets k).2),
       (x2 + (s.GetOffsets k).1, y2 + (s.GetOffsets k).2))) ∧
    (∀ x y width height : K, s.DrawRect k x y width height =
      ((x + (s.GetOffsets k).1, y + (s.GetOffsets k).2), (width, height))) ∧
    (∀ vp : Viewport K, s.Viewport = some vp → s.GetOffsets k = vp.GetOffsets) ∧
    (s.Viewport = none → s.AutoPadding = true →
      s.GetOffsets k = ((k.AUTO_PADDING : K), (k.AUTO_PADDING : K))) ∧
    (∀ (screenWidth screenHeight worldWidth worldHeight : Int) (viewport : Option (Viewport K)),
      screen.New k screenWidth screenHeight worldWidth worldHeight viewport = .ok s →
        (∃ vp, s.Viewport = some vp ∧ s.AutoPadding = false) ∨
        (s.Viewport = none ∧ s.AutoPadding = true)) := by
  have hm := s.GetOffsetMatrix_eq k
  refine ⟨hm, ?_, ?_, fun _ _ _ _ => rfl, fun _ _ _ _ => rfl, ?_, ?_, ?_⟩
  · intro px py
    rw [hm, GeoM.Apply_identity_Translate]
  · intro op px py
    rw [CustomScreen.DrawImage, GeoM.Apply_Concat, hm, GeoM.Apply_identity_Translate]
  · intro vp hv
    simp [CustomScreen.GetOffsets, hv]
  · intro hv ha
    simp [CustomScreen.GetOffsets, hv, ha]
  · intro sw sh ww wh vpo h
    exact screen_New_mode k sw sh ww wh vpo s h

end DrawProofs

section CentreProofs

variable {K : Type} [LinearOrderedField K] [FloorRing K]

theorem Render_of_viewport (mf : MathFns K) (k : Constants) (s : CustomScreen K)
    (vp : Viewport K) (hv : s.Viewport = some vp) (resX resY : Int) (rng : Rand K) :
    ∃ s1 : CustomScreen K,
      s.Render mf k resX resY rng = some (s1, (s.Shaker.GetOffsets rng).2) ∧
      ∀ px py : K, s1.DrawOP.Apply px py =
        if s.AutoScaling = true ∧
            (resX ≠ truncInt s.ScreenSize.1 ∨ resY ≠ truncInt s.ScreenSize.2) then
          ((resX : K) / s.ScreenSize.1 *
              ((vp.GetMatrix mf).Apply (px - (s.Shaker.GetOffsets rng).1.1)
                (py - (s.Shaker.GetOffsets rng).1.2)).1,
           (resY : K) / s.ScreenSize.2 *
              ((vp.GetMatrix mf).Apply (px - (s.Shaker.GetOffsets rng).1.1)
                (py - (s.Shaker.GetOffsets rng).1.2)).2)
        else (vp.GetMatrix mf).Apply (px - (s.Shaker.GetOffsets rng).1.1)
          (py - (s.Shaker.GetOffsets rng).1.2) := by
  obtain ⟨g, hg, hga⟩ := renderGeoM_of_viewport mf k s vp hv (s.Shaker.GetOffsets rng).1.1
    (s.Shaker.GetOffsets rng).1.2 resX resY
  refine ⟨{ s with DrawOP := g }, ?_, hga⟩
  simp only [CustomScreen.Render, hg, CustomScreen.drawCameraFocusArea, hv]

end CentreProofs

section CentreImage

variable {K : Type} [LinearOrderedField K]

/-- Where the centre of the viewport lands: drawn through `DrawLine` it is put at
`ViewSize / 2` on the surface, and the matrix of the viewport, which pivots on
`Position + ViewSize / 2`, sends that point to
`ViewSize / 2 + Position - 1.01 ^ ZoomFactor * R (Position)`. -/
theorem drawn_centre_image (mf : MathFns K) (h0 : mf.Sincos 0 = (0, 1)) (k : Constants)
    (s : CustomScreen K) (vp : Viewport K) (hv : s.Viewport = some vp) :
    (s.DrawLine k vp.GetCenter.1 vp.GetCenter.2 vp.GetCenter.1 vp.GetCenter.2).1 =
      (vp.ViewSize.1 / 2, vp.ViewSize.2 / 2) ∧
    (vp.GetMatrix mf).Apply (vp.ViewSize.1 / 2) (vp.ViewSize.2 / 2) =
      (vp.ViewSize.1 / 2 + vp.Position.1 - powInt (101 / 100) vp.ZoomFactor *
          ((mf.Sincos ((vp.Rotation : K) * 2 * mf.Pi / 360)).2 * vp.Position.1 -
           (mf.Sincos ((vp.Rotation : K) * 2 * mf.Pi / 360)).1 * vp.Position.2),
       vp.ViewSize.2 / 2 + vp.Position.2 - powInt (101 / 100) vp.ZoomFactor *
          ((mf.Sincos ((vp.Rotation : K) * 2 * mf.Pi / 360)).1 * vp.Position.1 +
           (mf.Sincos ((vp.Rotation : K) * 2 * mf.Pi / 360)).2 * vp.Position.2)) := by
  constructor
  · simp only [CustomScreen.DrawLine, CustomScreen.GetOffsets, hv, Option.isNone_some,
      Bool.and_false, Viewport.GetOffsets, Viewport.GetCenter]
    refine Prod.ext ?_ ?_ <;> simp
  · rw [Viewport.GetMatrix_Apply mf h0]
    simp only [Viewport.GetCenter]
    refine Prod.ext ?_ ?_ <;> simp only <;> ring

end CentreImage

section CentreExample

/-- C22, the failing run: on the screen of the example program with the viewport moved to
(100, 0) and zoomed in by one level, no shake and a 320x240 target, the centre (260, 120) of
the viewport given to `DrawLine` is put at (160, 120) on the surface and the transform of
`Render` sends it to (159, 120), not to the centre (160, 120) of the view.  Without the zoom
the same point does land on (160, 120). -/
theorem C22_centre_drifts_under_zoom :
    (∃ vp : Viewport ℚ, zoomedScreen.Viewport = some vp ∧ vp.Position = (100, 0) ∧
      vp.ZoomFactor = 1 ∧ vp.Rotation = 0 ∧ vp.GetCenter = (260, 120) ∧
      (vp.ViewSize.1 / 2, vp.ViewSize.2 / 2) = (160, 120)) ∧
    (zoomedScreen.DrawLine exampleConstants 260 120 260 120).1 = (160, 120) ∧
    (zoomedScreen.Shaker.GetOffsets exampleRand).1 = (0, 0) ∧
    (∃ s1 : CustomScreen ℚ,
      zoomedScreen.Render rationalMath exampleConstants 320 240 exampleRand =
        some (s1, exampleRand) ∧
      s1.DrawOP.Apply 160 120 = (159, 120) ∧ s1.DrawOP.Apply 160 120 ≠ (160, 120)) ∧
    (movedScreen.DrawLine exampleConstants 260 120 260 120).1 = (160, 120) ∧
    (∃ s0 : CustomScreen ℚ,
      movedScreen.Render rationalMath exampleConstants 320 240 exampleRand =
        some (s0, exampleRand) ∧
      s0.DrawOP.Apply 160 120 = (160, 120)) := by
  have hpos : (exampleViewport.MoveTo 100 0).Position = (100, 0) := by
    norm_num [exampleViewport, viewport.New, Viewport.MoveTo, Viewport.OutOfBounds]
  have hzoom : (exampleViewport.MoveTo 100 0).ZoomBy exampleConstants 1 =
      { exampleViewport.MoveTo 100 0 with ZoomFactor := 1 } := by
    simp [Viewport.ZoomBy, exampleConstants, exampleViewport, viewport.New, Viewport.MoveTo,
      wrapInt]
  have hsh : ∀ s : CustomScreen ℚ, s.Shaker = shaker.New →
      s.Shaker.GetOffsets exampleRand = ((0, 0), exampleRand) := by
    intro s hs
    rw [hs]
    norm_num [shaker.New, Shaker.GetOffsets]
  have ht1 : truncInt ((320 : Int) : ℚ) = 320 := truncInt_intCast 320
  have ht2 : truncInt ((240 : Int) : ℚ) = 240 := truncInt_intCast 240
  have hz1 : (320 : Int) = truncInt zoomedScreen.ScreenSize.1 := by
    rw [← ht1]; norm_num [zoomedScreen, exampleScreen]
  have hz2 : (240 : Int) = truncInt zoomedScreen.ScreenSize.2 := by
    rw [← ht2]; norm_num [zoomedScreen, exampleScreen]
  have hm1 : (320 : Int) = truncInt movedScreen.ScreenSize.1 := by
    rw [← ht1]; norm_num [movedScreen, exampleScreen]
  have hm2 : (240 : Int) = truncInt movedScreen.ScreenSize.2 := by
    rw [← ht2]; norm_num [movedScreen, exampleScreen]
  refine ⟨⟨_, rfl, ?_, ?_, ?_, ?_, ?_⟩, ?_, ?_, ?_, ?_, ?_⟩
  · rw [hzoom]; exact hpos
  · rw [hzoom]
  · rw [hzoom]; rfl
  · rw [hzoom]
    simp only [Viewport.GetCenter, hpos]
    norm_num [exampleViewport, viewport.New, Viewport.MoveTo, Viewport.OutOfBounds]
  · rw [hzoom]
    norm_num [exampleViewport, viewport.New, Viewport.MoveTo, Viewport.OutOfBounds]
  · simp only [CustomScreen.DrawLine, CustomScreen.GetOffsets, zoomedScreen, hzoom,
      Option.isNone_some, Bool.and_false, Viewport.GetOffsets, hpos]
    norm_num [exampleViewport, viewport.New, Viewport.MoveTo, Viewport.OutOfBounds]
  · rw [hsh zoomedScreen rfl]
  · obtain ⟨s1, h1, h2⟩ := Render_of_viewport rationalMath exampleConstants zoomedScreen _ rfl
      320 240 exampleRand
    rw [hsh zoomedScreen rfl] at h1 h2
    have h3 := h2 160 120
    rw [if_neg (fun h => h.2.elim (fun a => a hz1) (fun a => a hz2)), hzoom] at h3
    have h4 : s1.DrawOP.Apply 160 120 = (159, 120) := by
      rw [h3]
      simp only [Viewport.GetMatrix, Viewport.GetCenter, hpos]
      norm_num [exampleViewport, viewport.New, Viewport.MoveTo, Viewport.OutOfBounds,
        GeoM.Rotate, GeoM.Scale, GeoM.Translate, GeoM.identity, GeoM.Apply, powInt]
    refine ⟨s1, h1, h4, ?_⟩
    rw [h4]
    norm_num
  · simp only [CustomScreen.DrawLine, CustomScreen.GetOffsets, movedScreen,
      Option.isNone_some, Bool.and_false, Viewport.GetOffsets, hpos]
    norm_num
  · obtain ⟨s0, h1, h2⟩ := Render_of_viewport rationalMath exampleConstants movedScreen _ rfl
      320 240 exampleRand
    rw [hsh movedScreen rfl] at h1 h2
    have h3 := h2 160 120
    rw [if_neg (fun h => h.2.elim (fun a => a hm1) (fun a => a hm2))] at h3
    refine ⟨s0, h1, ?_⟩
    rw [h3]
    simp only [Viewport.GetMatrix, Viewport.GetCenter, hpos]
    norm_num [exampleViewport, viewport.New, Viewport.MoveTo, Viewport.OutOfBounds,
      GeoM.Rotate, GeoM.Scale, GeoM.Translate, GeoM.identity, GeoM.Apply, powInt]

end CentreExample

end GopherEngine
